import Mathlib

/-!
# WebService: three REST services (PostgreSQL, MongoDB + socket.io, analytics)

Shallow embedding of the request handlers of

* `REST-POSTGRES/server.js` (orders, reviews),
* `REST-MONGODB/routes/products.js`, `REST-MONGODB/routes/categories.js`,
* `REST-ANALYTICS/routes/goals.js`.

A handler is a pure function from the store state, the request and an oracle
that says which awaited store call (or which `io.emit`) throws, to the new
store state and the response.  JavaScript numbers are IEEE-754 binary64
values, represented exactly as integer multiples of `2^-1074`.
-/

set_option autoImplicit false

/-! ## JavaScript numbers -/

namespace JS

/-- The number 1, counted in units of `2^-1074` (the smallest positive binary64 value). -/
def one : Nat := 1 <<< 1074

/-- Nearest integer to `n / d`, ties to the even one. -/
def roundHalfEven (n d : Nat) : Nat :=
  let q := n / d
  let r := n % d
  if 2 * r < d then q
  else if d < 2 * r then q + 1
  else if q % 2 = 0 then q else q + 1

/-- How many low bits a magnitude of `q` units loses to fit a 53-bit significand:
the largest `s` with `2^(52+s) ≤ q`, or `0` when `q < 2^53`. -/
def excess (q : Nat) : Nat :=
  [2048, 1024, 512, 256, 128, 64, 32, 16, 8, 4, 2, 1].foldl
    (fun s b => if 1 <<< (52 + s + b) ≤ q then s + b else s) 0

/-- Round the magnitude `n / d` (in units) to the nearest representable magnitude,
ties to even. -/
def roundUnits (n d : Nat) : Nat :=
  let s := excess (n / d)
  roundHalfEven n (d <<< s) <<< s

/-- A JavaScript number: a finite binary64 value `k * 2^-1074` (the two zeros are
identified), an infinity, or NaN. -/
inductive Num where
  | fin (k : Int)
  | inf (neg : Bool)
  | nan
  deriving DecidableEq, Repr

/-- A rounded magnitude with its sign; magnitudes from `2^1024` on overflow to an infinity. -/
def pack (neg : Bool) (m : Nat) : Num :=
  if 1 <<< 2098 ≤ m then Num.inf neg else Num.fin (if neg then -(m : Int) else (m : Int))

/-- The binary64 value nearest to `± n / d`: what a decimal literal or `parseFloat` of a
decimal string denotes. -/
def ofRat (neg : Bool) (n d : Nat) : Num :=
  pack neg (roundUnits (n * one) d)

/-- The number denoted by a natural-number literal. -/
def ofNat (n : Nat) : Num := ofRat false n 1

/-- The `+` of two numbers. -/
def add : Num → Num → Num
  | .fin a, .fin b => pack (decide (a + b < 0)) (roundUnits (a + b).natAbs 1)
  | .fin _, .inf s => .inf s
  | .inf s, .fin _ => .inf s
  | .inf s, .inf t => if s = t then .inf s else .nan
  | _, _ => .nan

/-- The `*` of two numbers. -/
def mul : Num → Num → Num
  | .fin a, .fin b => pack (decide (a * b < 0)) (roundUnits (a * b).natAbs one)
  | .fin a, .inf s => if a = 0 then .nan else .inf (decide (a < 0) != s)
  | .inf s, .fin a => if a = 0 then .nan else .inf (decide (a < 0) != s)
  | .inf s, .inf t => .inf (s != t)
  | _, _ => .nan

/-- The string a number formats to: a sign and a count of hundredths for `toFixed(2)`
below `10^21`, and otherwise the number's own `ToString`, which reads back as itself. -/
inductive NumStr where
  | fixed (neg : Bool) (hundredths : Nat)
  | plain (x : Num)
  deriving DecidableEq, Repr

/-- The method `Number.prototype.toFixed(2)`: the magnitude is rounded to the nearest hundredth,
the larger one on a tie. -/
def toFixed2 : Num → NumStr
  | .fin k =>
    if 10 ^ 21 * one ≤ k.natAbs then .plain (.fin k)
    else .fixed (decide (k < 0)) ((200 * k.natAbs + one) / (2 * one))
  | x => .plain x

/-- Unary `+` on such a string. -/
def toNumber : NumStr → Num
  | .fixed neg h => ofRat neg h 100
  | .plain x => x

end JS

/-! ## JSON request bodies -/

/-- A parsed JSON value, as `express.json()` leaves it in `req.body`. -/
inductive JVal where
  | null
  | bool (b : Bool)
  | num (x : JS.Num)
  | str (s : String)
  | arr (xs : List JVal)
  | obj (kvs : List (String × JVal))

namespace JVal

/-- Property access `v.k`; `none` is `undefined`. -/
def field (v : JVal) (k : String) : Option JVal :=
  match v with
  | .obj kvs => kvs.lookup k
  | _ => none

/-- The schema `z.string()`. -/
def asString : Option JVal → Option String
  | some (.str s) => some s
  | _ => none

/-- The schema `z.number()`: any number but NaN. -/
def asNumber : Option JVal → Option JS.Num
  | some (.num .nan) => none
  | some (.num x) => some x
  | _ => none

/-- The elements of a list when all of them are strings. -/
def allStrings : List JVal → Option (List String)
  | [] => some []
  | .str s :: rest => (allStrings rest).map (fun ss => s :: ss)
  | _ :: _ => none

/-- The schema `z.array(z.string())`. -/
def asStringArray : Option JVal → Option (List String)
  | some (.arr xs) => allStrings xs
  | _ => none

end JVal

/-! ## REST-POSTGRES/server.js -/

namespace Postgres

/-- A value of an SQL `numeric` column: `mant / 10^scale`. -/
structure Numeric where
  mant : Int
  scale : Nat
  deriving DecidableEq, Repr

/-- A row of `products`. -/
structure Product where
  id : String
  name : String
  about : String
  price : Numeric
  average_score : Option Numeric
  deriving DecidableEq, Repr

/-- A row of `users`. -/
structure User where
  id : String
  username : String
  email : String
  password : String
  deriving DecidableEq, Repr

/-- A row of `reviews`. -/
structure Review where
  id : String
  user_id : String
  product_id : String
  score : Int
  content : String
  deriving DecidableEq, Repr

/-- A row of `orders`; `total` is the number bound to the insert. -/
structure Order where
  id : String
  user_id : String
  product_ids : List String
  total : JS.Num
  payment : Bool
  created_at : Nat
  updated_at : Nat
  deriving DecidableEq, Repr

/-- The tables the handlers read and write. -/
structure Db where
  products : List Product
  users : List User
  reviews : List Review
  orders : List Order
  deriving DecidableEq, Repr

/-- The columns `id, username, email` of a user row: what `RETURNING id, username, email`
and `SELECT id, username, email` yield. -/
structure PublicUser where
  id : String
  username : String
  email : String
  deriving DecidableEq, Repr

/-- The object `{ ...order, user: user[0], products }` of the order reads; `user` is
absent when no user row has the order's user id. -/
structure OrderView where
  order : Order
  user : Option PublicUser
  products : List Product
  deriving DecidableEq, Repr

/-- What a handler sends. -/
inductive Body where
  | zodError
  | message (message : String)
  | failure (message : String)
  | order (row : Order)
  | review (row : Review)
  | user (row : PublicUser)
  | users (rows : List PublicUser)
  | orderView (view : OrderView)
  | orderViews (views : List OrderView)
  deriving DecidableEq, Repr

/-- A response: status code and body. -/
structure Response where
  status : Nat
  body : Body
  deriving DecidableEq, Repr

/-- How a handler without a `try` ends: with a response, or with its promise rejected
and nothing sent. -/
inductive Outcome where
  | sent (response : Response)
  | rejected
  deriving DecidableEq, Repr

/-- The call `parseFloat(p.price)` on a numeric column value. -/
def parseFloat (x : Numeric) : JS.Num :=
  JS.ofRat (decide (x.mant < 0)) x.mant.natAbs (10 ^ x.scale)

/-- The data `CreateOrderSchema` yields. -/
structure CreateOrder where
  userId : String
  productIds : List String
  deriving DecidableEq, Repr

/-- The parse `CreateOrderSchema.safeParse`: `userId` a string, `productIds` an array of uuid
strings; `isUuid` is zod's uuid test. -/
def CreateOrderSchema (isUuid : String → Bool) (body : JVal) : Option CreateOrder :=
  match JVal.asString (body.field "userId"), JVal.asStringArray (body.field "productIds") with
  | some userId, some productIds =>
    if productIds.all isUuid then some ⟨userId, productIds⟩ else none
  | _, _ => none

/-- The rows of `SELECT * FROM products WHERE id = ANY(productIds)`, in table order. -/
def selectProducts (db : Db) (productIds : List String) : List Product :=
  db.products.filter (fun p => decide (p.id ∈ productIds))

/-- The subtotal `products.reduce((sum, p) => sum + parseFloat(p.price), 0)`. -/
def subtotalOf (products : List Product) : JS.Num :=
  products.foldl (fun sum p => JS.add sum (parseFloat p.price)) (JS.ofNat 0)

/-- The total `+(subtotal * 1.2).toFixed(2)`. -/
def totalOf (subtotal : JS.Num) : JS.Num :=
  JS.toNumber (JS.toFixed2 (JS.mul subtotal (JS.ofRat false 12 10)))

/-- The second argument of `sql.array`: the numeric id of a type, which is what the
driver looks up, or a name, which is what the source passes (`'uuid'`). -/
inductive ArrayType where
  | oid (id : Nat)
  | name (name : String)
  deriving DecidableEq, Repr

/-- What a statement reads of the parameter `sql.array(xs, type)`; `none` when the
statement throws.  Given a type id the driver sends an array literal and the statement
reads `xs`.  A name is no key of the driver's serializers: the array is sent as its
JavaScript string, the elements joined by commas (the empty text for no element), and
PostgreSQL refuses that text as a malformed array literal. -/
def sqlArray (xs : List String) : ArrayType → Option (List String)
  | .oid _ => some xs
  | .name _ => none

/-- The handler `app.post("/orders")`.  `fault i` says that the `i`-th awaited statement
throws for a reason of its own; both statements bind `sql.array(productIds, 'uuid')`;
`newId` and `now` are the id and timestamps the table defaults give the new row. -/
def postOrders (isUuid : String → Bool) (db : Db) (body : JVal) (fault : Nat → Bool)
    (newId : String) (now : Nat) : Db × Response :=
  match CreateOrderSchema isUuid body with
  | none => (db, ⟨400, .zodError⟩)
  | some ⟨userId, productIds⟩ =>
    match (if fault 0 then none else sqlArray productIds (.name "uuid")) with
    | none => (db, ⟨500, .failure "Erreur lors de la création"⟩)
    | some ids =>
      let products := selectProducts db ids
      if products.length ≠ productIds.length then
        (db, ⟨400, .message "Certains produits sont invalides."⟩)
      else
        let subtotal := subtotalOf products
        let total := totalOf subtotal
        match (if fault 1 then none else sqlArray productIds (.name "uuid")) with
        | none => (db, ⟨500, .failure "Erreur lors de la création"⟩)
        | some stored =>
          let order : Order := ⟨newId, userId, stored, total, false, now, now⟩
          ({ db with orders := db.orders ++ [order] }, ⟨201, .order order⟩)

/-- The handler `app.patch("/orders/:id")`: one `UPDATE ... RETURNING *`, outside any `try`. -/
def patchOrders (db : Db) (id : String) (payment : Bool) (fault : Nat → Bool) (now : Nat) :
    Db × Outcome :=
  if fault 0 then (db, .rejected)
  else
    let touch : Order → Order := fun o => { o with payment := payment, updated_at := now }
    let updated := (db.orders.filter (fun o => decide (o.id = id))).map touch
    let db1 : Db := { db with orders := db.orders.map (fun o => if o.id = id then touch o else o) }
    match updated with
    | [] => (db1, .sent ⟨404, .message "Not found"⟩)
    | row :: _ => (db1, .sent ⟨200, .order row⟩)

/-- The data `CreateReviewSchema` yields. -/
structure CreateReview where
  userId : String
  productId : String
  score : Int
  content : String
  deriving DecidableEq, Repr

/-- The schema `z.number().int().min(1).max(5)`. -/
def asScore : Option JVal → Option Int
  | some (.num (.fin k)) =>
    if k % (JS.one : Int) = 0 ∧ (JS.one : Int) ≤ k ∧ k ≤ 5 * (JS.one : Int) then
      some (k / (JS.one : Int))
    else none
  | _ => none

/-- The schema `z.string().uuid()`. -/
def asUuid (isUuid : String → Bool) (v : Option JVal) : Option String :=
  match JVal.asString v with
  | some s => if isUuid s then some s else none
  | none => none

/-- The parse `CreateReviewSchema.safeParse`. -/
def CreateReviewSchema (isUuid : String → Bool) (body : JVal) : Option CreateReview :=
  match asUuid isUuid (body.field "userId"), asUuid isUuid (body.field "productId"),
      asScore (body.field "score"), JVal.asString (body.field "content") with
  | some userId, some productId, some score, some content =>
    some ⟨userId, productId, score, content⟩
  | _, _, _, _ => none

/-- Nearest integer to `n / d`, halves away from zero: how `numeric` rounds. -/
def roundDiv (n : Int) (d : Nat) : Int :=
  Int.sign n * (((2 * n.natAbs + d) / (2 * d) : Nat) : Int)

/-- The value of `SELECT AVG(score)::numeric(3,2)` over the given scores: `some none` is NULL (no
row), `none` is the numeric field overflow error of the cast. -/
def avgNumeric32 (scores : List Int) : Option (Option Numeric) :=
  if scores.length = 0 then some none
  else
    let h := roundDiv (100 * scores.sum) scores.length
    if 1000 ≤ h.natAbs then none else some (some ⟨h, 2⟩)

/-- The scores of `SELECT ... FROM reviews WHERE product_id = productId`. -/
def selectScores (db : Db) (productId : String) : List Int :=
  (db.reviews.filter (fun r => decide (r.product_id = productId))).map (fun r => r.score)

/-- The statement `UPDATE products SET average_score = average WHERE id = productId`. -/
def updateAverage (db : Db) (productId : String) (average : Option Numeric) : Db :=
  { db with
    products := db.products.map
      (fun p => if p.id = productId then { p with average_score := average } else p) }

/-- The handler `app.post("/reviews")`: insert, recompute the average, update the product, all in
one `try`. -/
def postReviews (isUuid : String → Bool) (db : Db) (body : JVal) (fault : Nat → Bool)
    (newId : String) : Db × Response :=
  match CreateReviewSchema isUuid body with
  | none => (db, ⟨400, .zodError⟩)
  | some ⟨userId, productId, score, content⟩ =>
    if fault 0 then (db, ⟨500, .failure "Erreur création review"⟩)
    else
      let inserted : Review := ⟨newId, userId, productId, score, content⟩
      let db1 : Db := { db with reviews := db.reviews ++ [inserted] }
      if fault 1 then (db1, ⟨500, .failure "Erreur création review"⟩)
      else
        match avgNumeric32 (selectScores db1 productId) with
        | none => (db1, ⟨500, .failure "Erreur création review"⟩)
        | some average =>
          if fault 2 then (db1, ⟨500, .failure "Erreur création review"⟩)
          else (updateAverage db1 productId average, ⟨201, .review inserted⟩)

/-- The requests of a list served one after the other, no store call throwing; each
comes with the id its review row is given. -/
def postReviewsSeq (isUuid : String → Bool) (db : Db) : List (JVal × String) → Db
  | [] => db
  | (body, newId) :: rest =>
    postReviewsSeq isUuid (postReviews isUuid db body (fun _ => false) newId).1 rest

/-! ### Users and order reads -/

/-- The columns `id, username, email` of a row. -/
def User.publicColumns (u : User) : PublicUser := ⟨u.id, u.username, u.email⟩

/-- The `length` of a JavaScript string: its UTF-16 code units. -/
def utf16Length (s : String) : Nat :=
  s.toList.foldl (fun n c => n + (if c.toNat < 65536 then 1 else 2)) 0

/-- The data `CreateUserSchema` yields. -/
structure CreateUser where
  username : String
  email : String
  password : String
  deriving DecidableEq, Repr

/-- The parse `CreateUserSchema.safeParse`: `username` a string, `email` a string that
passes zod's email test `isEmail`, `password` a string of at least 6 code units. -/
def CreateUserSchema (isEmail : String → Bool) (body : JVal) : Option CreateUser :=
  match JVal.asString (body.field "username"), JVal.asString (body.field "email"),
      JVal.asString (body.field "password") with
  | some username, some email, some password =>
    if isEmail email && decide (6 ≤ utf16Length password) then
      some ⟨username, email, password⟩
    else none
  | _, _, _ => none

/-- The handler `app.post("/users")`; `hash` is `hashPassword` (SHA-512 in hexadecimal,
from `crypto`). -/
def postUsers (isEmail : String → Bool) (hash : String → String) (db : Db) (body : JVal)
    (fault : Nat → Bool) (newId : String) : Db × Response :=
  match CreateUserSchema isEmail body with
  | none => (db, ⟨400, .zodError⟩)
  | some ⟨username, email, password⟩ =>
    let hashed := hash password
    if fault 0 then (db, ⟨500, .failure "User creation failed"⟩)
    else
      ({ db with users := db.users ++ [⟨newId, username, email, hashed⟩] },
        ⟨201, .user (User.publicColumns ⟨newId, username, email, hashed⟩)⟩)

/-- The end of the two user updates: `updated[0]` when a row was returned, else 404. -/
def sendUpdated (updated : List PublicUser) : Outcome :=
  match updated with
  | row :: _ => .sent ⟨200, .user row⟩
  | [] => .sent ⟨404, .message "User not found"⟩

/-- The statement `UPDATE users SET ... WHERE id = id RETURNING id, username, email`, with
`set` the assignments: the new table and the returned rows. -/
def updateUsers (db : Db) (id : String) (set : User → User) : Db × List PublicUser :=
  ({ db with users := db.users.map (fun u => if u.id = id then set u else u) },
    ((db.users.filter (fun u => decide (u.id = id))).map set).map User.publicColumns)

/-- The handler `app.put("/users/:id")`, outside any `try`. -/
def putUsers (isEmail : String → Bool) (hash : String → String) (db : Db) (id : String)
    (body : JVal) (fault : Nat → Bool) : Db × Outcome :=
  match CreateUserSchema isEmail body with
  | none => (db, .sent ⟨400, .zodError⟩)
  | some ⟨username, email, password⟩ =>
    let hashed := hash password
    if fault 0 then (db, .rejected)
    else
      let r := updateUsers db id
        (fun u => { u with username := username, email := email, password := hashed })
      (r.1, sendUpdated r.2)

/-- Whether `if (v)` takes the branch: `undefined`, `null`, `false`, `0`, `NaN` and the
empty string do not. -/
def truthy : Option JVal → Bool
  | none => false
  | some .null => false
  | some (.bool b) => b
  | some (.num (.fin k)) => decide (k ≠ 0)
  | some (.num .nan) => false
  | some (.num (.inf _)) => true
  | some (.str s) => decide (s ≠ "")
  | some (.arr _) => true
  | some (.obj _) => true

/-- The text a bound value gives a column: a string is itself; for any other value
`sqlText` says what the driver sends, `none` when the statement throws. -/
def bindText (sqlText : JVal → Option String) : JVal → Option String
  | .str s => some s
  | v => sqlText v

/-- One optional assignment of the partial update: absent when the field is falsy,
otherwise the text to assign, or `none` inside when binding it throws. -/
def patchField (sqlText : JVal → Option String) (v : Option JVal) :
    Option (Option String) :=
  match v with
  | some x => if truthy (some x) then some (bindText sqlText x) else none
  | none => none

/-- The password assignment of the partial update: `hashPassword` accepts a string and
throws on any other truthy value. -/
def patchPassword (hash : String → String) (v : Option JVal) : Option (Option String) :=
  match v with
  | some (.str s) => if truthy (some (.str s)) then some (some (hash s)) else none
  | some x => if truthy (some x) then some none else none
  | none => none

/-- The assignments of a partial update applied to a row. -/
def patchRow (username email password : Option String) (u : User) : User :=
  { u with
    username := username.getD u.username,
    email := email.getD u.email,
    password := password.getD u.password }

/-- The handler `app.patch("/users/:id")`, outside any `try`: the body is not validated.
`fault 0` stands for any throw of the `UPDATE`, that of building its `SET` list with
`sql.join` included. -/
def patchUsers (sqlText : JVal → Option String) (hash : String → String) (db : Db)
    (id : String) (body : JVal) (fault : Nat → Bool) : Db × Outcome :=
  let username := patchField sqlText (body.field "username")
  let email := patchField sqlText (body.field "email")
  match patchPassword hash (body.field "password") with
  | some none => (db, .rejected)
  | password =>
    if username.isNone && email.isNone && password.isNone then
      (db, .sent ⟨400, .message "No fields to update"⟩)
    else if fault 0 || username == some none || email == some none then (db, .rejected)
    else
      let r := updateUsers db id (patchRow (username.join) (email.join) (password.join))
      (r.1, sendUpdated r.2)

/-- The handler `app.get("/users")`, outside any `try`. -/
def getUsers (db : Db) (fault : Nat → Bool) : Outcome :=
  if fault 0 then .rejected
  else .sent ⟨200, .users (db.users.map User.publicColumns)⟩

/-- The two lookups of an order read: the user by `SELECT id, username, email FROM users
WHERE id = order.user_id`, the products by the order's id list. -/
def viewOrder (db : Db) (order : Order) : OrderView :=
  ⟨order,
    ((db.users.filter (fun u => decide (u.id = order.user_id))).map User.publicColumns).head?,
    selectProducts db order.product_ids⟩

/-- The loop of `app.get("/orders")` from the `i`-th order on: `none` when one of its
statements throws (statements `1 + 2 * i` and `2 + 2 * i` are the lookups of order `i`);
a throw of the products lookup on its parameter `sql.array(order.product_ids, 'uuid')`
is among the throws `fault (2 + 2 * i)` stands for. -/
def viewOrders (db : Db) (fault : Nat → Bool) : Nat → List Order → Option (List OrderView)
  | _, [] => some []
  | i, order :: rest =>
    if fault (1 + 2 * i) || fault (2 + 2 * i) then none
    else
      match viewOrders db fault (i + 1) rest with
      | none => none
      | some views => some (viewOrder db order :: views)

/-- The handler `app.get("/orders")`, outside any `try`. -/
def getOrders (db : Db) (fault : Nat → Bool) : Outcome :=
  if fault 0 then .rejected
  else
    match viewOrders db fault 0 db.orders with
    | none => .rejected
    | some results => .sent ⟨200, .orderViews results⟩

/-- The handler `app.get("/orders/:id")`, outside any `try`; `fault 2` stands for any
throw of the products lookup, that on its `sql.array` parameter included. -/
def getOrderById (db : Db) (id : String) (fault : Nat → Bool) : Outcome :=
  if fault 0 then .rejected
  else
    match db.orders.filter (fun o => decide (o.id = id)) with
    | [] => .sent ⟨404, .message "Not found"⟩
    | order :: _ =>
      if fault 1 || fault 2 then .rejected
      else .sent ⟨200, .orderView (viewOrder db order)⟩

/-- The requests whose responses carry user objects. -/
inductive AccountRequest where
  | postUsers (body : JVal)
  | putUsers (id : String) (body : JVal)
  | patchUsers (id : String) (body : JVal)
  | getUsers
  | getOrders
  | getOrder (id : String)

/-- The routing of these requests; `newId` is the id the table gives a new user row. -/
def serve (isEmail : String → Bool) (sqlText : JVal → Option String) (hash : String → String)
    (db : Db) (fault : Nat → Bool) (newId : String) : AccountRequest → Db × Outcome
  | .postUsers body =>
    let r := postUsers isEmail hash db body fault newId
    (r.1, .sent r.2)
  | .putUsers id body => putUsers isEmail hash db id body fault
  | .patchUsers id body => patchUsers sqlText hash db id body fault
  | .getUsers => (db, getUsers db fault)
  | .getOrders => (db, getOrders db fault)
  | .getOrder id => (db, getOrderById db id fault)

/-- The user objects of a response. -/
def Outcome.userObjects : Outcome → List PublicUser
  | .sent ⟨_, .user row⟩ => [row]
  | .sent ⟨_, .users rows⟩ => rows
  | .sent ⟨_, .orderView view⟩ => view.user.toList
  | .sent ⟨_, .orderViews views⟩ => views.flatMap (fun v => v.user.toList)
  | _ => []

/-- Two stores that differ at most in the passwords stored with their users. -/
def samePublic (a b : Db) : Prop :=
  a.products = b.products ∧ a.reviews = b.reviews ∧ a.orders = b.orders
    ∧ a.users.map User.publicColumns = b.users.map User.publicColumns

end Postgres

/-! ## REST-MONGODB/routes/products.js and categories.js -/

namespace Mongo

/-- A document of `products`; ids are the hexadecimal form of the `ObjectId`. -/
structure Product where
  _id : String
  name : String
  about : String
  price : JS.Num
  categoryIds : List String
  deriving DecidableEq, Repr

/-- A document of `categories`. -/
structure Category where
  _id : String
  name : String
  deriving DecidableEq, Repr

/-- The collections behind `req.app.locals.db`. -/
structure Db where
  products : List Product
  categories : List Category
  deriving DecidableEq, Repr

/-- What one request does besides answering, in order: a store call with what it
acknowledged (`none` when it threw; otherwise the inserted, matched or deleted count),
and an `io.emit` with whether it threw. -/
inductive Effect where
  | store (method : String) (collection : String) (acknowledged : Option Nat)
  | emit (channel : String) (event : JVal) (threw : Bool)

/-- What a handler sends. -/
inductive Body where
  | zodError
  | text (text : String)
  | mongoError
  | json (value : JVal)
  | empty

/-- A response: status code and body. -/
structure Response where
  status : Nat
  body : Body

/-- The store after a request, the request's effects in order, and its response. -/
structure Result where
  db : Db
  trace : List Effect
  response : Response

/-- What a request meets outside the handler: whether its store call throws, whether
its `io.emit` throws, and the id the driver gives an inserted document. -/
structure World where
  storeThrows : Bool
  emitThrows : Bool
  insertedId : String
  deriving DecidableEq, Repr

/-- Whether an effect is an `io.emit`. -/
def Effect.isEmit : Effect → Bool
  | .emit _ _ _ => true
  | .store _ _ _ => false

/-- Whether an effect is a store call that was acknowledged with at least one document
inserted, matched or deleted. -/
def Effect.isAcked : Effect → Bool
  | .store _ _ (some n) => decide (0 < n)
  | _ => false

/-- The data `CreateProductSchema` yields. -/
structure CreateProduct where
  name : String
  about : String
  price : JS.Num
  categoryIds : List String
  deriving DecidableEq, Repr

/-- The schema `z.number().positive()`. -/
def asPositive (v : Option JVal) : Option JS.Num :=
  match JVal.asNumber v with
  | some (.fin k) => if 0 < k then some (.fin k) else none
  | some (.inf false) => some (.inf false)
  | _ => none

/-- The parse `CreateProductSchema.safeParse`. -/
def CreateProductSchema (body : JVal) : Option CreateProduct :=
  match JVal.asString (body.field "name"), JVal.asString (body.field "about"),
      asPositive (body.field "price"), JVal.asStringArray (body.field "categoryIds") with
  | some name, some about, some price, some categoryIds =>
    some ⟨name, about, price, categoryIds⟩
  | _, _, _, _ => none

/-- The parse `CreateCategorySchema.safeParse`. -/
def CreateCategorySchema (body : JVal) : Option String :=
  JVal.asString (body.field "name")

/-- The conversion `ids.map(id => new ObjectId(id))`; `oid s` is the hexadecimal form of
`new ObjectId(s)`, `none` when the constructor throws (`ObjectId.isValid(s)` false). -/
def mapObjectId (oid : String → Option String) : List String → Option (List String)
  | [] => some []
  | s :: rest =>
    match oid s, mapObjectId oid rest with
    | some h, some hs => some (h :: hs)
    | _, _ => none

/-- The first element satisfying `p` replaced by its image: `updateOne`. -/
def updateFirst {α : Type} (p : α → Bool) (f : α → α) : List α → List α
  | [] => []
  | x :: xs => if p x then f x :: xs else x :: updateFirst p f xs

/-- The record `{ _id, name, about, price, categoryIds }` sent and broadcast. -/
def productJson (id : String) (d : CreateProduct) : JVal :=
  .obj [("_id", .str id), ("name", .str d.name), ("about", .str d.about),
    ("price", .num d.price), ("categoryIds", .arr (d.categoryIds.map JVal.str))]

/-- The handler `router.post("/")` of products. -/
def postProduct (oid : String → Option String) (db : Db) (body : JVal) (w : World) : Result :=
  match CreateProductSchema body with
  | none => ⟨db, [], ⟨400, .zodError⟩⟩
  | some d =>
    match mapObjectId oid d.categoryIds with
    | none => ⟨db, [], ⟨500, .mongoError⟩⟩
    | some categoryObjectIds =>
      if w.storeThrows then
        ⟨db, [.store "insertOne" "products" none], ⟨500, .mongoError⟩⟩
      else
        let db1 : Db :=
          { db with
            products := db.products ++ [⟨w.insertedId, d.name, d.about, d.price, categoryObjectIds⟩] }
        let product := productJson w.insertedId d
        let event := JVal.obj [("type", .str "create"), ("product", product)]
        if w.emitThrows then
          ⟨db1, [.store "insertOne" "products" (some 1), .emit "products" event true],
            ⟨500, .mongoError⟩⟩
        else
          ⟨db1, [.store "insertOne" "products" (some 1), .emit "products" event false],
            ⟨201, .json product⟩⟩

/-- The handler `router.put("/:id")` of products. -/
def putProduct (oid : String → Option String) (db : Db) (id : String) (body : JVal)
    (w : World) : Result :=
  match oid id with
  | none => ⟨db, [], ⟨400, .text "ID invalide"⟩⟩
  | some key =>
    match CreateProductSchema body with
    | none => ⟨db, [], ⟨400, .zodError⟩⟩
    | some d =>
      match mapObjectId oid d.categoryIds with
      | none => ⟨db, [], ⟨500, .mongoError⟩⟩
      | some categoryObjectIds =>
        if w.storeThrows then
          ⟨db, [.store "updateOne" "products" none], ⟨500, .mongoError⟩⟩
        else
          let hit : Product → Bool := fun p => decide (p._id = key)
          let matchedCount := if db.products.any hit then 1 else 0
          let db1 : Db :=
            { db with
              products := updateFirst hit
                (fun p => ⟨p._id, d.name, d.about, d.price, categoryObjectIds⟩) db.products }
          if matchedCount = 0 then
            ⟨db1, [.store "updateOne" "products" (some matchedCount)],
              ⟨404, .text "Produit non trouvé"⟩⟩
          else
            let event := JVal.obj [("type", .str "update"), ("product", productJson id d)]
            if w.emitThrows then
              ⟨db1, [.store "updateOne" "products" (some matchedCount),
                  .emit "products" event true], ⟨500, .mongoError⟩⟩
            else
              ⟨db1, [.store "updateOne" "products" (some matchedCount),
                  .emit "products" event false],
                ⟨200, .json (.obj [("message", .str "Produit mis à jour")])⟩⟩

/-- The handler `router.delete("/:id")` of products. -/
def deleteProduct (oid : String → Option String) (db : Db) (id : String) (w : World) :
    Result :=
  match oid id with
  | none => ⟨db, [], ⟨400, .text "ID invalide"⟩⟩
  | some key =>
    if w.storeThrows then
      ⟨db, [.store "deleteOne" "products" none], ⟨500, .mongoError⟩⟩
    else
      let hit : Product → Bool := fun p => decide (p._id = key)
      let deletedCount := if db.products.any hit then 1 else 0
      let db1 : Db := { db with products := db.products.eraseP hit }
      if deletedCount = 0 then
        ⟨db1, [.store "deleteOne" "products" (some deletedCount)],
          ⟨404, .text "Produit introuvable"⟩⟩
      else
        let event := JVal.obj [("type", .str "delete"), ("id", .str id)]
        if w.emitThrows then
          ⟨db1, [.store "deleteOne" "products" (some deletedCount),
              .emit "products" event true], ⟨500, .mongoError⟩⟩
        else
          ⟨db1, [.store "deleteOne" "products" (some deletedCount),
              .emit "products" event false], ⟨204, .empty⟩⟩

/-- The handler `router.post("/")` of categories. -/
def postCategory (db : Db) (body : JVal) (w : World) : Result :=
  match CreateCategorySchema body with
  | none => ⟨db, [], ⟨400, .zodError⟩⟩
  | some name =>
    if w.storeThrows then
      ⟨db, [.store "insertOne" "categories" none], ⟨500, .mongoError⟩⟩
    else
      let db1 : Db := { db with categories := db.categories ++ [⟨w.insertedId, name⟩] }
      let newCategory := JVal.obj [("_id", .str w.insertedId), ("name", .str name)]
      let event := JVal.obj [("type", .str "create"), ("category", newCategory)]
      if w.emitThrows then
        ⟨db1, [.store "insertOne" "categories" (some 1), .emit "categories" event true],
          ⟨500, .mongoError⟩⟩
      else
        ⟨db1, [.store "insertOne" "categories" (some 1), .emit "categories" event false],
          ⟨201, .json newCategory⟩⟩

/-- The catalog mutation requests the two routers serve. -/
inductive Request where
  | postProducts (body : JVal)
  | putProducts (id : String) (body : JVal)
  | deleteProducts (id : String)
  | postCategories (body : JVal)

/-- The routing of `index.js` for these requests. -/
def handle (oid : String → Option String) (db : Db) (w : World) : Request → Result
  | .postProducts body => postProduct oid db body w
  | .putProducts id body => putProduct oid db id body w
  | .deleteProducts id => deleteProduct oid db id w
  | .postCategories body => postCategory db body w

/-- The `:id` of the path, for the requests that have one. -/
def Request.pathId : Request → Option String
  | .putProducts id _ => some id
  | .deleteProducts id => some id
  | _ => none

/-- The status on the last line of each handler, sent when nothing failed. -/
def Request.successStatus : Request → Nat
  | .postProducts _ => 201
  | .putProducts _ _ => 200
  | .deleteProducts _ => 204
  | .postCategories _ => 201

/-- That the request is turned away before its store call: the id in the path is not
well formed, or the body fails its schema. -/
def Request.invalid (oid : String → Option String) : Request → Bool
  | .postProducts body => (CreateProductSchema body).isNone
  | .putProducts id body => (oid id).isNone || (CreateProductSchema body).isNone
  | .deleteProducts id => (oid id).isNone
  | .postCategories body => (CreateCategorySchema body).isNone

end Mongo

/-! ## REST-ANALYTICS/routes/goals.js -/

namespace Analytics

/-- A document of `views`. -/
structure View where
  _id : String
  source : String
  url : String
  visitor : String
  createdAt : Int
  meta : JVal

/-- A document of `actions`. -/
structure Action where
  _id : String
  source : String
  url : String
  action : String
  visitor : String
  createdAt : Int
  meta : JVal

/-- A document of `goals`. -/
structure Goal where
  _id : String
  source : String
  url : String
  goal : String
  visitor : String
  createdAt : Int
  meta : JVal

/-- The collections behind `req.app.locals.db`. -/
structure Db where
  views : List View
  actions : List Action
  goals : List Goal

/-- What the handler sends. -/
inductive Body where
  | text (text : String)
  | mongoError
  | details (goal : Goal) (views : List View) (actions : List Action)

/-- A response: status code and body. -/
structure Response where
  status : Nat
  body : Body

/-- The handler `router.get("/:goalId/details")`.  `oid s` is the hexadecimal form of
`new ObjectId(s)`, `none` when `ObjectId.isValid(s)` is false; `fault 0` is `findOne`
throwing, `fault 1` and `fault 2` the two `find`s. -/
def getGoalDetails (oid : String → Option String) (db : Db) (goalId : String)
    (fault : Nat → Bool) : Response :=
  match oid goalId with
  | none => ⟨400, .text "ID invalide"⟩
  | some key =>
    if fault 0 then ⟨500, .mongoError⟩
    else
      match db.goals.find? (fun g => decide (g._id = key)) with
      | none => ⟨404, .text "Goal non trouvé"⟩
      | some goal =>
        let visitor := goal.visitor
        if fault 1 || fault 2 then ⟨500, .mongoError⟩
        else
          let views := db.views.filter (fun v => decide (v.visitor = visitor))
          let actions := db.actions.filter (fun a => decide (a.visitor = visitor))
          ⟨200, .details goal views actions⟩

end Analytics

/-! ## Sample data -/

namespace Postgres

/-- A uuid test of the shape zod applies: 36 characters, four of them hyphens. -/
def uuidShape (s : String) : Bool :=
  s.length == 36 && (s.toList.filter (fun c => c == '-')).length == 4

/-- Two products priced 10.00 and 15.00. -/
def demoProducts : List Product :=
  [⟨"11111111-1111-4111-8111-111111111111", "lamp", "a lamp", ⟨1000, 2⟩, none⟩,
   ⟨"22222222-2222-4222-8222-222222222222", "desk", "a desk", ⟨1500, 2⟩, none⟩]

/-- A store holding the two products and nothing else. -/
def demoDb : Db := ⟨demoProducts, [], [], []⟩

/-- An order body naming the given product ids. -/
def orderBody (productIds : List String) : JVal :=
  .obj [("userId", .str "u1"), ("productIds", .arr (productIds.map JVal.str))]

/-- The id of the lamp. -/
def lampId : String := "11111111-1111-4111-8111-111111111111"

/-- The id of the desk. -/
def deskId : String := "22222222-2222-4222-8222-222222222222"

/-- A well-formed id no product has. -/
def ghostId : String := "99999999-9999-4999-8999-999999999999"

end Postgres

namespace Postgres

/-- A review body for the given product and score. -/
def reviewBody (productId : String) (score : Nat) : JVal :=
  .obj [("userId", .str "33333333-3333-4333-8333-333333333333"),
    ("productId", .str productId), ("score", .num (JS.ofNat score)), ("content", .str "ok")]

/-- Three reviews of the lamp, scored 5, 4 and 4. -/
def demoReviews : List (JVal × String) :=
  [(reviewBody lampId 5, "r1"), (reviewBody lampId 4, "r2"), (reviewBody lampId 4, "r3")]

end Postgres

namespace Postgres

/-- Two orders, the first unpaid. -/
def demoOrders : List Order :=
  [⟨"o1", "u1", [lampId, deskId], JS.ofNat 30, false, 3, 3⟩,
   ⟨"o2", "u2", [deskId], JS.ofNat 18, true, 4, 5⟩]

/-- A store holding the two products and the two orders. -/
def demoShop : Db := ⟨demoProducts, [], [], demoOrders⟩

end Postgres

namespace Mongo

/-- An `ObjectId` reading that accepts exactly the 24-character strings of hexadecimal
digits and lowers their letters. -/
def hexOid (s : String) : Option String :=
  if s.length == 24
      && s.toList.all (fun c => c.isDigit || ('a' ≤ c && c ≤ 'f') || ('A' ≤ c && c ≤ 'F')) then
    some (String.mk (s.toList.map Char.toLower))
  else none

/-- The id of the stored chair. -/
def chairId : String := "64b7f0c2a1d3e4f5a6b7c8d9"

/-- A well-formed id no product has. -/
def strayId : String := "000000000000000000000000"

/-- A catalog of one product and one category. -/
def demoCatalog : Db :=
  ⟨[⟨chairId, "chair", "a chair", JS.ofNat 40, ["64b7f0c2a1d3e4f5a6b7c8aa"]⟩],
   [⟨"64b7f0c2a1d3e4f5a6b7c8aa", "furniture"⟩]⟩

/-- A valid product body. -/
def stoolBody : JVal :=
  .obj [("name", .str "stool"), ("about", .str "a stool"), ("price", .num (JS.ofNat 12)),
    ("categoryIds", .arr [.str "64b7f0c2a1d3e4f5a6b7c8aa"])]

end Mongo

namespace Analytics

/-- The id of the stored goal. -/
def goalKey : String := "64b7f0c2a1d3e4f5a6b7c8d9"

/-- A view seen by the given visitor. -/
def viewOf (id visitor : String) : View := ⟨id, "web", "/home", visitor, 0, .obj []⟩

/-- An action done by the given visitor. -/
def actionOf (id visitor : String) : Action :=
  ⟨id, "web", "/home", "click", visitor, 0, .obj []⟩

/-- One goal of visitor `ann`, who has 3 views and 2 actions among those of two others. -/
def demoEvents : Db :=
  ⟨[viewOf "v1" "ann", viewOf "v2" "bob", viewOf "v3" "ann", viewOf "v4" "cid",
      viewOf "v5" "ann"],
   [actionOf "a1" "bob", actionOf "a2" "ann", actionOf "a3" "ann", actionOf "a4" "cid"],
   [⟨goalKey, "web", "/buy", "purchase", "ann", 0, .obj []⟩]⟩

end Analytics

namespace Postgres

/-- An email test of the shape zod applies: the string contains an at sign. -/
def emailShape (s : String) : Bool := s.toList.contains '@'

/-- Two users. -/
def demoUsers : List User :=
  [⟨"u1", "ann", "ann@example.org", "6f1c"⟩, ⟨"u2", "bob", "bob@example.org", "a09e"⟩]

/-- The same two users with other stored passwords. -/
def demoUsersRehashed : List User :=
  [⟨"u1", "ann", "ann@example.org", "77b2"⟩, ⟨"u2", "bob", "bob@example.org", "0c4d"⟩]

/-- A store with the two products, the two users and the two orders. -/
def demoAccounts : Db := ⟨demoProducts, demoUsers, [], demoOrders⟩

/-- The same store with the other passwords. -/
def demoAccountsRehashed : Db := ⟨demoProducts, demoUsersRehashed, [], demoOrders⟩

/-- A body creating the user `cid`. -/
def cidBody : JVal :=
  .obj [("username", .str "cid"), ("email", .str "cid@example.org"),
    ("password", .str "secret-1")]

end Postgres

namespace Mongo

/-- A valid category body. -/
def gardenBody : JVal := .obj [("name", .str "garden")]

/-- A product body that passes the schema and names a category id that is no
`ObjectId`. -/
def badCategoryBody : JVal :=
  .obj [("name", .str "stool"), ("about", .str "a stool"), ("price", .num (JS.ofNat 12)),
    ("categoryIds", .arr [.str "not-an-id"])]

end Mongo

/-! ## Rounding error of the number model -/

namespace JS

/-- A shifted one is a power of two. -/
theorem one_shiftLeft (k : Nat) : 1 <<< k = 2 ^ k := by
  rw [Nat.shiftLeft_eq, one_mul]

theorem one_eq : one = 2 ^ 1074 := one_shiftLeft 1074

/-- The integer `roundHalfEven n d` is within one half of `n / d`. -/
theorem roundHalfEven_error (n d : Nat) (hd : 0 < d) :
    2 * (roundHalfEven n d * d) ≤ 2 * n + d ∧ 2 * n ≤ 2 * (roundHalfEven n d * d) + d := by
  have hdm := Nat.div_add_mod n d
  have hlt := Nat.mod_lt n hd
  have hmul : (n / d + 1) * d = d * (n / d) + d := by ring
  have hmul0 : n / d * d = d * (n / d) := by ring
  unfold roundHalfEven
  simp only
  split
  · rw [hmul0]
    omega
  · split
    · rw [hmul]
      omega
    · split
      · rw [hmul0]
        omega
      · rw [hmul]
        omega

/-- The search of `excess` never overshoots: what it returns is `0` or a shift whose
power of two, times `2^52`, is at most `q`. -/
theorem excess_fold_inv (q : Nat) (l : List Nat) :
    ∀ s : Nat, (s = 0 ∨ 2 ^ (52 + s) ≤ q) →
      (l.foldl (fun s b => if 1 <<< (52 + s + b) ≤ q then s + b else s) s = 0
        ∨ 2 ^ (52 + l.foldl (fun s b => if 1 <<< (52 + s + b) ≤ q then s + b else s) s) ≤ q) := by
  induction l with
  | nil => intro s hs; simpa using hs
  | cons b rest ih =>
    intro s hs
    simp only [List.foldl_cons]
    apply ih
    split
    · rename_i h
      right
      rw [Nat.shiftLeft_eq, one_mul] at h
      rw [← Nat.add_assoc]
      exact h
    · exact hs

/-- Below `2^(53+e)` at most `e` low bits are dropped. -/
theorem excess_le (q e : Nat) (hq : q < 2 ^ (53 + e)) : excess q ≤ e := by
  rcases excess_fold_inv q [2048, 1024, 512, 256, 128, 64, 32, 16, 8, 4, 2, 1] 0 (Or.inl rfl)
    with h | h
  · unfold excess
    rw [h]
    exact Nat.zero_le _
  · have hlt : 2 ^ (52 + excess q) < 2 ^ (53 + e) := lt_of_le_of_lt h hq
    have := (Nat.pow_lt_pow_iff_right (by norm_num : 1 < 2)).1 hlt
    omega

/-- The rounding error of `roundUnits` on a quotient below `2^(53+e)` is at most `2^e / 2`. -/
theorem roundUnits_error (n d e : Nat) (hd : 0 < d) (hlt : n < d * 2 ^ (53 + e)) :
    2 * (roundUnits n d * d) ≤ 2 * n + d * 2 ^ e
      ∧ 2 * n ≤ 2 * (roundUnits n d * d) + d * 2 ^ e := by
  have hq : n / d < 2 ^ (53 + e) := by
    rw [Nat.div_lt_iff_lt_mul hd, Nat.mul_comm]
    exact hlt
  have hs := excess_le (n / d) e hq
  have hpos : 0 < d * 2 ^ excess (n / d) := Nat.mul_pos hd (by positivity)
  obtain ⟨h1, h2⟩ := roundHalfEven_error n (d * 2 ^ excess (n / d)) hpos
  have hmono : d * 2 ^ excess (n / d) ≤ d * 2 ^ e :=
    Nat.mul_le_mul_left d (Nat.pow_le_pow_right (by norm_num) hs)
  have hshape : roundUnits n d * d
      = roundHalfEven n (d * 2 ^ excess (n / d)) * (d * 2 ^ excess (n / d)) := by
    unfold roundUnits
    simp only [Nat.shiftLeft_eq]
    ring
  rw [hshape]
  omega

theorem cast_two_pow (k : Nat) : ((2 ^ k : Nat) : ℚ) = 2 ^ k := by
  rw [Nat.cast_pow, Nat.cast_ofNat]

theorem cast_shiftLeft (a k : Nat) : ((a <<< k : Nat) : ℚ) = (a : ℚ) * 2 ^ k := by
  rw [Nat.shiftLeft_eq, Nat.cast_mul, cast_two_pow]

theorem lt_mul_two_pow_of_cast (n d k : Nat) (h : (n : ℚ) < (d : ℚ) * 2 ^ k) :
    n < d * 2 ^ k := by
  have h2 : ((n : Nat) : ℚ) < ((d * 2 ^ k : Nat) : ℚ) := by
    rw [Nat.cast_mul, cast_two_pow]
    exact h
  exact_mod_cast h2

theorem roundUnits_error_cast (n d e : Nat) (hd : 0 < d) (hlt : n < d * 2 ^ (53 + e)) :
    (2 : ℚ) * ((roundUnits n d : ℚ) * d) ≤ 2 * n + d * 2 ^ e
      ∧ (2 : ℚ) * n ≤ 2 * ((roundUnits n d : ℚ) * d) + d * 2 ^ e := by
  obtain ⟨h1, h2⟩ := roundUnits_error n d e hd hlt
  constructor
  · exact_mod_cast h1
  · exact_mod_cast h2

theorem one_rat : (one : ℚ) = 2 ^ 1074 := by
  rw [one_eq, cast_two_pow]

theorem one_rat_pos : (0 : ℚ) < (one : ℚ) := by
  rw [one_rat]
  positivity

/-- In units of 1: below `2^31` a rounding moves a value by at most `2^-23`. -/
theorem roundUnits_error_rat (n d : Nat) (hd : 0 < d)
    (hlt : (n : ℚ) / (d : ℚ) < 2 ^ 31 * (one : ℚ)) :
    |(roundUnits n d : ℚ) / (one : ℚ) - (n : ℚ) / (d : ℚ) / (one : ℚ)| ≤ 1 / 2 ^ 23 := by
  have hdq : (0 : ℚ) < (d : ℚ) := by exact_mod_cast hd
  have hnat : n < d * 2 ^ (53 + 1052) := by
    apply lt_mul_two_pow_of_cast
    have h1 : (n : ℚ) < (d : ℚ) * (2 ^ 31 * (one : ℚ)) := by
      rw [div_lt_iff₀ hdq] at hlt
      linarith
    rw [one_rat] at h1
    have : (2 : ℚ) ^ (53 + 1052) = 2 ^ 31 * 2 ^ 1074 := by rw [← pow_add]
    rw [this]
    exact h1
  obtain ⟨h1q, h2q⟩ := roundUnits_error_cast n d 1052 hd hnat
  have hp : (2 : ℚ) ^ 1052 = 2 * 2 ^ 1051 := by rw [← pow_succ']
  have hu : (one : ℚ) = 2 ^ 23 * 2 ^ 1051 := by rw [one_rat, ← pow_add]
  have he : (0 : ℚ) < 2 ^ 1051 := by positivity
  rw [hp] at h1q h2q
  rw [hu]
  generalize (2 : ℚ) ^ 1051 = E at h1q h2q he ⊢
  generalize (roundUnits n d : ℚ) = r at h1q h2q ⊢
  generalize (n : ℚ) = x at h1q h2q ⊢
  generalize (d : ℚ) = y at hdq h1q h2q ⊢
  have hdiff : r / (2 ^ 23 * E) - x / y / (2 ^ 23 * E) = (r * y - x) / (y * (2 ^ 23 * E)) := by
    field_simp
    ring
  rw [hdiff, abs_le]
  have hden : (0 : ℚ) < y * (2 ^ 23 * E) := mul_pos hdq (mul_pos (by norm_num) he)
  constructor
  · rw [le_div_iff₀ hden]
    have : -(1 / 2 ^ 23 : ℚ) * (y * (2 ^ 23 * E)) = -(y * E) := by
      field_simp
      ring
    rw [this]
    linarith
  · rw [div_le_iff₀ hden]
    have : (1 / 2 ^ 23 : ℚ) * (y * (2 ^ 23 * E)) = y * E := by
      field_simp
      ring
    rw [this]
    linarith

/-- A magnitude whose value is below `2^31 + 1` is finite. -/
theorem pack_of_small (m : Nat) (h : (m : ℚ) / (one : ℚ) < 2 ^ 31 + 1) :
    pack false m = .fin (m : Int) := by
  have hlt : ¬ (1 <<< 2098 ≤ m) := by
    intro hge
    rw [one_shiftLeft] at hge
    have hq : ((2 ^ 2098 : Nat) : ℚ) ≤ (m : ℚ) := Nat.cast_le.2 hge
    have hm : (m : ℚ) < (2 ^ 31 + 1) * (one : ℚ) := (div_lt_iff₀ one_rat_pos).1 h
    rw [one_rat] at hm
    rw [cast_two_pow] at hq
    have h2098 : (2 : ℚ) ^ 2098 = 2 ^ 1024 * 2 ^ 1074 := by rw [← pow_add]
    have hpos : (0 : ℚ) < 2 ^ 1074 := by positivity
    have hbig : (2 : ℚ) ^ 31 + 1 ≤ 2 ^ 1024 := by
      have h1 : (2 : ℚ) ^ 32 ≤ 2 ^ 1024 := pow_le_pow_right₀ (by norm_num) (by norm_num)
      have h2 : (2 : ℚ) ^ 31 + 1 ≤ 2 ^ 32 := by norm_num
      exact le_trans h2 h1
    rw [h2098] at hq
    have := mul_le_mul_of_nonneg_right hbig hpos.le
    linarith
  unfold pack
  rw [if_neg hlt]
  rfl

/-- Rounding a quotient below `2^31`: a finite number within `2^-23` of the quotient. -/
theorem pack_roundUnits (n d : Nat) (hd : 0 < d)
    (hlt : (n : ℚ) / (d : ℚ) < 2 ^ 31 * (one : ℚ)) :
    pack false (roundUnits n d) = .fin (roundUnits n d : Int)
      ∧ |(roundUnits n d : ℚ) / (one : ℚ) - (n : ℚ) / (d : ℚ) / (one : ℚ)| ≤ 1 / 2 ^ 23 := by
  have herr := roundUnits_error_rat n d hd hlt
  refine ⟨pack_of_small _ ?_, herr⟩
  have h1 : (n : ℚ) / (d : ℚ) / (one : ℚ) < 2 ^ 31 := by
    exact (div_lt_iff₀ one_rat_pos).2 hlt
  have h2 := (abs_le.1 herr).2
  have h3 : (1 : ℚ) / 2 ^ 23 ≤ 1 := by norm_num
  linarith

/-- The sum of two non-negative finite numbers whose exact sum is below `2^31`. -/
theorem add_fin_fin (a b : Nat) (hlt : ((a : ℚ) + (b : ℚ)) / (one : ℚ) < 2 ^ 31) :
    ∃ r : Nat, add (.fin (a : Int)) (.fin (b : Int)) = .fin (r : Int)
      ∧ |(r : ℚ) / (one : ℚ) - ((a : ℚ) + (b : ℚ)) / (one : ℚ)| ≤ 1 / 2 ^ 23 := by
  have hq : ((a + b : Nat) : ℚ) / ((1 : Nat) : ℚ) < 2 ^ 31 * (one : ℚ) := by
    rw [div_lt_iff₀ one_rat_pos] at hlt
    push_cast
    simpa using hlt
  obtain ⟨hp, herr⟩ := pack_roundUnits (a + b) 1 Nat.one_pos hq
  refine ⟨roundUnits (a + b) 1, ?_, ?_⟩
  · have hneg : decide (((a : Int) + (b : Int)) < 0) = false := by
      rw [decide_eq_false_iff_not]
      omega
    have habs : ((a : Int) + (b : Int)).natAbs = a + b := by omega
    simp only [add, hneg, habs]
    exact hp
  · push_cast at herr
    simpa using herr

/-- The number the literal `1.2` denotes: `5404319552844595 / 2^52`. -/
theorem literal_12_10 :
    ∃ t : Nat, ofRat false 12 10 = .fin (t : Int)
      ∧ (t : ℚ) / (one : ℚ) = 5404319552844595 / 4503599627370496 := by
  refine ⟨5404319552844595 <<< 1022, by decide, ?_⟩
  have h1 : ((5404319552844595 <<< 1022 : Nat) : ℚ) = 5404319552844595 * 2 ^ 1022 := by
    rw [cast_shiftLeft, Nat.cast_ofNat]
  have h2 : (one : ℚ) = 4503599627370496 * 2 ^ 1022 := by
    rw [one_rat]
    have : (4503599627370496 : ℚ) = 2 ^ 52 := by norm_num
    rw [this, ← pow_add]
  have hpos : (0 : ℚ) < 2 ^ 1022 := by positivity
  rw [h1, h2]
  generalize (2 : ℚ) ^ 1022 = E at hpos ⊢
  field_simp
  ring

/-- A non-negative finite number below `10^9 + 1` times the literal `1.2`. -/
theorem mul_literal_12_10 (s : Nat) (hs : (s : ℚ) / (one : ℚ) ≤ 10 ^ 9 + 1) :
    ∃ p : Nat, mul (.fin (s : Int)) (ofRat false 12 10) = .fin (p : Int)
      ∧ |(p : ℚ) / (one : ℚ)
          - (s : ℚ) / (one : ℚ) * (5404319552844595 / 4503599627370496)| ≤ 1 / 2 ^ 23 := by
  obtain ⟨t, ht, hval⟩ := literal_12_10
  have hexact : ((s * t : Nat) : ℚ) / ((one : Nat) : ℚ) / (one : ℚ)
      = (s : ℚ) / (one : ℚ) * (5404319552844595 / 4503599627370496) := by
    rw [← hval]
    push_cast
    have := one_rat_pos
    field_simp
  have hq : ((s * t : Nat) : ℚ) / ((one : Nat) : ℚ) < 2 ^ 31 * (one : ℚ) := by
    have h1 : ((s * t : Nat) : ℚ) / ((one : Nat) : ℚ) / (one : ℚ) < 2 ^ 31 := by
      rw [hexact]
      have : (s : ℚ) / (one : ℚ) * (5404319552844595 / 4503599627370496)
          ≤ (10 ^ 9 + 1) * (5404319552844595 / 4503599627370496) :=
        mul_le_mul_of_nonneg_right hs (by norm_num)
      have h2 : ((10 : ℚ) ^ 9 + 1) * (5404319552844595 / 4503599627370496) < 2 ^ 31 := by
        norm_num
      linarith
    exact (div_lt_iff₀ one_rat_pos).1 h1
  have hone : 0 < one := by
    have := one_rat_pos
    exact_mod_cast this
  obtain ⟨hp, herr⟩ := pack_roundUnits (s * t) one hone hq
  refine ⟨roundUnits (s * t) one, ?_, ?_⟩
  · have hneg : decide (((s : Int) * (t : Int)) < 0) = false := by
      rw [decide_eq_false_iff_not]
      have : (0 : Int) ≤ (s : Int) * (t : Int) :=
        Int.mul_nonneg (Int.natCast_nonneg s) (Int.natCast_nonneg t)
      omega
    have habs : ((s : Int) * (t : Int)).natAbs = s * t := by
      rw [Int.natAbs_mul, Int.natAbs_ofNat, Int.natAbs_ofNat]
    rw [ht]
    simp only [mul, hneg, habs]
    exact hp
  · rw [hexact] at herr
    exact herr

end JS

namespace Postgres

/-- Reading a price of `c` whole cents gives a finite number within `2^-23` of
`c / 100`. -/
theorem parseFloat_cents (c : Nat) (hc : c ≤ 10 ^ 11) :
    ∃ a : Nat, parseFloat ⟨(c : Int), 2⟩ = .fin (a : Int)
      ∧ |(a : ℚ) / (JS.one : ℚ) - (c : ℚ) / 100| ≤ 1 / 2 ^ 23 := by
  have hcq : (c : ℚ) ≤ 10 ^ 11 := by exact_mod_cast hc
  have hexact : ((c * JS.one : Nat) : ℚ) / ((100 : Nat) : ℚ) / (JS.one : ℚ) = (c : ℚ) / 100 := by
    have := JS.one_rat_pos
    push_cast
    field_simp
    ring
  have hq : ((c * JS.one : Nat) : ℚ) / ((100 : Nat) : ℚ) < 2 ^ 31 * (JS.one : ℚ) := by
    have h1 : ((c * JS.one : Nat) : ℚ) / ((100 : Nat) : ℚ) / (JS.one : ℚ) < 2 ^ 31 := by
      rw [hexact]
      have : (c : ℚ) / 100 ≤ 10 ^ 9 := by
        rw [div_le_iff₀ (by norm_num)]
        norm_num
        linarith
      have h2 : (10 : ℚ) ^ 9 < 2 ^ 31 := by norm_num
      linarith
    exact (div_lt_iff₀ JS.one_rat_pos).1 h1
  obtain ⟨hp, herr⟩ := JS.pack_roundUnits (c * JS.one) 100 (by norm_num) hq
  refine ⟨JS.roundUnits (c * JS.one) 100, ?_, ?_⟩
  · have hneg : decide ((c : Int) < 0) = false := by
      rw [decide_eq_false_iff_not]
      omega
    simp only [parseFloat, JS.ofRat, hneg, Int.natAbs_ofNat]
    exact hp
  · rw [hexact] at herr
    exact herr

/-- The running sum over rows priced in whole cents stays within `2^-23` per rounding of
the exact sum. -/
theorem foldl_cents (rows : List Product) :
    ∀ (s c0 j : Nat),
      (∀ p ∈ rows, p.price.scale = 2 ∧ 0 ≤ p.price.mant) →
      |(s : ℚ) / (JS.one : ℚ) - (c0 : ℚ) / 100| ≤ 2 * (j : ℚ) / 2 ^ 23 →
      c0 + (rows.map (fun p => p.price.mant.toNat)).sum ≤ 10 ^ 11 →
      j + rows.length ≤ 1000 →
      ∃ s1 : Nat,
        rows.foldl (fun sum p => JS.add sum (parseFloat p.price)) (.fin (s : Int))
          = .fin (s1 : Int)
        ∧ |(s1 : ℚ) / (JS.one : ℚ)
            - ((c0 + (rows.map (fun p => p.price.mant.toNat)).sum : Nat) : ℚ) / 100|
          ≤ 2 * ((j + rows.length : Nat) : ℚ) / 2 ^ 23 := by
  induction rows with
  | nil =>
    intro s c0 j _ hs _ _
    exact ⟨s, rfl, by simpa using hs⟩
  | cons p rest ih =>
    intro s c0 j hrows hs hsum hlen
    obtain ⟨hscale, hmant⟩ := hrows p (List.mem_cons_self _ _)
    simp only [List.map_cons, List.sum_cons, List.length_cons] at hsum hlen
    obtain ⟨c, hc⟩ : ∃ c : Nat, p.price.mant = (c : Int) := ⟨p.price.mant.toNat, by omega⟩
    have hctoNat : p.price.mant.toNat = c := by omega
    rw [hctoNat] at hsum
    have hprice : p.price = ⟨(c : Int), 2⟩ := by
      cases hp : p.price with
      | mk mant scale =>
        rw [hp] at hscale hc
        simp only at hscale hc
        rw [hscale, hc]
    obtain ⟨a, ha, haerr⟩ := parseFloat_cents c (by omega)
    have hjq : (j : ℚ) ≤ 999 := by
      have : j ≤ 999 := by omega
      exact_mod_cast this
    have hj0 : (0 : ℚ) ≤ (j : ℚ) := Nat.cast_nonneg _
    have hcq : ((c0 : ℚ) + (c : ℚ)) ≤ 10 ^ 11 := by
      have : c0 + c ≤ 10 ^ 11 := by omega
      exact_mod_cast this
    have hs2 := abs_le.1 hs
    have ha2 := abs_le.1 haerr
    have hsplit : ((s : ℚ) + (a : ℚ)) / (JS.one : ℚ)
        = (s : ℚ) / (JS.one : ℚ) + (a : ℚ) / (JS.one : ℚ) := add_div _ _ _
    have hlt : ((s : ℚ) + (a : ℚ)) / (JS.one : ℚ) < 2 ^ 31 := by
      rw [hsplit]
      have h31 : (10 : ℚ) ^ 11 / 100 + 2 * 999 / 2 ^ 23 + 1 / 2 ^ 23 < 2 ^ 31 := by norm_num
      have hdiv : ((c0 : ℚ) + (c : ℚ)) / 100 ≤ 10 ^ 11 / 100 :=
        div_le_div_of_nonneg_right hcq (by norm_num)
      have hjdiv : 2 * (j : ℚ) / 2 ^ 23 ≤ 2 * 999 / 2 ^ 23 :=
        div_le_div_of_nonneg_right (by linarith) (by norm_num)
      have hadd : ((c0 : ℚ) + (c : ℚ)) / 100 = (c0 : ℚ) / 100 + (c : ℚ) / 100 := add_div _ _ _
      linarith [hs2.2, ha2.2]
    obtain ⟨s1, hs1, hs1err⟩ := JS.add_fin_fin s a hlt
    have hs12 := abs_le.1 hs1err
    have hinv : |(s1 : ℚ) / (JS.one : ℚ) - ((c0 + c : Nat) : ℚ) / 100|
        ≤ 2 * ((j + 1 : Nat) : ℚ) / 2 ^ 23 := by
      rw [abs_le]
      push_cast
      have hadd : ((c0 : ℚ) + (c : ℚ)) / 100 = (c0 : ℚ) / 100 + (c : ℚ) / 100 := add_div _ _ _
      have hj1 : 2 * ((j : ℚ) + 1) / 2 ^ 23 = 2 * (j : ℚ) / 2 ^ 23 + 2 * (1 / 2 ^ 23) := by ring
      rw [hsplit] at hs12
      constructor <;> linarith [hs2.1, hs2.2, ha2.1, ha2.2, hs12.1, hs12.2]
    obtain ⟨s2, hs2fold, hs2err⟩ := ih s1 (c0 + c) (j + 1)
      (fun q hq => hrows q (List.mem_cons_of_mem _ hq)) hinv (by omega) (by omega)
    refine ⟨s2, ?_, ?_⟩
    · simp only [List.foldl_cons, hprice, ha, hs1]
      exact hs2fold
    · simp only [List.map_cons, List.sum_cons, List.length_cons, hctoNat]
      have e1 : c0 + (c + (rest.map (fun p => p.price.mant.toNat)).sum)
          = c0 + c + (rest.map (fun p => p.price.mant.toNat)).sum := by omega
      have e2 : j + (rest.length + 1) = j + 1 + rest.length := by omega
      rw [e1, e2]
      exact hs2err

/-- A non-negative number within a thousandth of `12 * c / 1000` keeps, under
`toFixed(2)`, the hundredths of `12 * c / 1000` rounded to the nearest cent. -/
theorem toFixed2_of_close (p c : Nat) (hc : c ≤ 10 ^ 11)
    (hlo : 12 * (c : ℚ) - 1 < 1000 * ((p : ℚ) / (JS.one : ℚ)))
    (hhi : 1000 * ((p : ℚ) / (JS.one : ℚ)) < 12 * (c : ℚ) + 1) :
    JS.toFixed2 (.fin (p : Int)) = .fixed false ((12 * c + 5) / 10) := by
  have hpos := JS.one_rat_pos
  have hcq : (c : ℚ) ≤ 10 ^ 11 := by exact_mod_cast hc
  have hH1 : 10 * ((12 * c + 5) / 10) + 1 ≤ 12 * c + 5 := by omega
  have hH2 : 12 * c + 5 ≤ 10 * ((12 * c + 5) / 10) + 9 := by omega
  generalize (12 * c + 5) / 10 = H at hH1 hH2 ⊢
  have hH1q : 10 * (H : ℚ) + 1 ≤ 12 * (c : ℚ) + 5 := by exact_mod_cast hH1
  have hH2q : 12 * (c : ℚ) + 5 ≤ 10 * (H : ℚ) + 9 := by exact_mod_cast hH2
  have hpx : (p : ℚ) = (p : ℚ) / (JS.one : ℚ) * (JS.one : ℚ) := by field_simp
  have hlow : ((H * (2 * JS.one) : Nat) : ℚ) ≤ ((200 * p + JS.one : Nat) : ℚ) := by
    push_cast
    rw [hpx]
    generalize (p : ℚ) / (JS.one : ℚ) = x at hlo hhi
    generalize (JS.one : ℚ) = u at hpos
    have hk : 0 ≤ 200 * x + 1 - 2 * (H : ℚ) := by linarith
    have := mul_nonneg hk hpos.le
    linarith
  have hupp : ((200 * p + JS.one : Nat) : ℚ) < (((H + 1) * (2 * JS.one) : Nat) : ℚ) := by
    push_cast
    rw [hpx]
    generalize (p : ℚ) / (JS.one : ℚ) = x at hlo hhi
    generalize (JS.one : ℚ) = u at hpos
    have hk : 0 < 2 * ((H : ℚ) + 1) - (200 * x + 1) := by linarith
    have := mul_pos hk hpos
    linarith
  have hdiv : (200 * p + JS.one) / (2 * JS.one) = H :=
    Nat.div_eq_of_lt_le (by exact_mod_cast hlow) (by exact_mod_cast hupp)
  have hsmall : ¬ (10 ^ 21 * JS.one ≤ p) := by
    intro hge
    have hq : ((10 ^ 21 * JS.one : Nat) : ℚ) ≤ (p : ℚ) := by exact_mod_cast hge
    push_cast at hq
    rw [hpx] at hq
    generalize (p : ℚ) / (JS.one : ℚ) = x at hlo hhi hq
    generalize (JS.one : ℚ) = u at hpos hq
    have hx : 0 < 10 ^ 21 - x := by
      have : (12 * (10 : ℚ) ^ 11 + 1) / 1000 < 10 ^ 21 := by norm_num
      linarith
    have := mul_pos hx hpos
    linarith
  have hneg : decide ((p : Int) < 0) = false := by
    rw [decide_eq_false_iff_not]
    omega
  unfold JS.toFixed2
  simp only [Int.natAbs_ofNat]
  rw [if_neg hsmall, hneg, hdiv]

/-- On at most 1000 rows priced in whole cents that sum to at most 10^9, the total the
handler computes in binary64 is the number nearest to the exact decimal value: 1.2 times
the exact subtotal, rounded to the nearest cent. -/
theorem totalOf_cents (rows : List Product)
    (hrows : ∀ p ∈ rows, p.price.scale = 2 ∧ 0 ≤ p.price.mant)
    (hlen : rows.length ≤ 1000)
    (hsum : (rows.map (fun p => p.price.mant.toNat)).sum ≤ 10 ^ 11) :
    totalOf (subtotalOf rows)
      = JS.ofRat false ((12 * (rows.map (fun p => p.price.mant.toNat)).sum + 5) / 10) 100 := by
  have hzero : JS.ofNat 0 = .fin ((0 : Nat) : Int) := by decide
  obtain ⟨s, hfold, hserr⟩ := foldl_cents rows 0 0 0 hrows (by simp) (by simpa using hsum)
    (by simpa using hlen)
  simp only [Nat.zero_add] at hfold hserr
  generalize (rows.map (fun p => p.price.mant.toNat)).sum = c at hsum hserr ⊢
  have hcq : (c : ℚ) ≤ 10 ^ 11 := by exact_mod_cast hsum
  have hc0 : (0 : ℚ) ≤ (c : ℚ) := Nat.cast_nonneg _
  have hnq : ((rows.length : Nat) : ℚ) ≤ 1000 := by exact_mod_cast hlen
  have hs2 := abs_le.1 hserr
  have hbound : 2 * ((rows.length : Nat) : ℚ) / 2 ^ 23 ≤ 2 * 1000 / 2 ^ 23 :=
    div_le_div_of_nonneg_right (by linarith) (by norm_num)
  have hcdiv : (c : ℚ) / 100 ≤ 10 ^ 11 / 100 := div_le_div_of_nonneg_right hcq (by norm_num)
  have hsle : (s : ℚ) / (JS.one : ℚ) ≤ 10 ^ 9 + 1 := by
    have : (10 : ℚ) ^ 11 / 100 + 2 * 1000 / 2 ^ 23 ≤ 10 ^ 9 + 1 := by norm_num
    linarith [hs2.2]
  obtain ⟨p, hmul, hperr⟩ := JS.mul_literal_12_10 s hsle
  have hp2 := abs_le.1 hperr
  have hlo : 12 * (c : ℚ) - 1 < 1000 * ((p : ℚ) / (JS.one : ℚ)) := by
    have h1 := hs2.1
    have h2 := hp2.1
    generalize (p : ℚ) / (JS.one : ℚ) = x at h2
    generalize (s : ℚ) / (JS.one : ℚ) = y at h1 h2
    generalize ((rows.length : Nat) : ℚ) = n at hbound h1
    have hc100 : (c : ℚ) = (c : ℚ) / 100 * 100 := by ring
    generalize (c : ℚ) / 100 = z at h1 hc100 hcdiv
    rw [hc100]
    norm_num at h1 h2 hbound hcdiv ⊢
    linarith
  have hhi : 1000 * ((p : ℚ) / (JS.one : ℚ)) < 12 * (c : ℚ) + 1 := by
    have h1 := hs2.2
    have h2 := hp2.2
    generalize (p : ℚ) / (JS.one : ℚ) = x at h2
    generalize (s : ℚ) / (JS.one : ℚ) = y at h1 h2
    generalize ((rows.length : Nat) : ℚ) = n at hbound h1
    have hc100 : (c : ℚ) = (c : ℚ) / 100 * 100 := by ring
    have hz0 : (0 : ℚ) ≤ (c : ℚ) / 100 := div_nonneg hc0 (by norm_num)
    generalize (c : ℚ) / 100 = z at h1 hc100 hcdiv hz0
    rw [hc100]
    norm_num at h1 h2 hbound hcdiv ⊢
    linarith
  unfold totalOf subtotalOf
  rw [hzero, hfold, hmul, toFixed2_of_close p c hsum hlo hhi]
  rfl

end Postgres

/-! ## Orders -/

namespace Postgres

theorem subtotalOf_eq_foldl (products : List Product) :
    subtotalOf products
      = (products.map (fun p => parseFloat p.price)).foldl JS.add (JS.ofNat 0) := by
  simp [subtotalOf, List.foldl_map]

theorem selectProducts_ids_nodup (db : Db) (productIds : List String)
    (hkey : (db.products.map (fun p => p.id)).Nodup) :
    ((selectProducts db productIds).map (fun p => p.id)).Nodup := by
  unfold selectProducts
  exact hkey.sublist ((List.filter_sublist _).map _)

theorem mem_selectProducts_ids (db : Db) (productIds : List String) (x : String) :
    x ∈ (selectProducts db productIds).map (fun p => p.id)
      ↔ x ∈ productIds ∧ ∃ p ∈ db.products, p.id = x := by
  simp only [selectProducts, List.mem_map, List.mem_filter, decide_eq_true_eq]
  constructor
  · rintro ⟨p, ⟨hp, hin⟩, rfl⟩
    exact ⟨hin, p, hp, rfl⟩
  · rintro ⟨hin, p, hp, rfl⟩
    exact ⟨p, ⟨hp, hin⟩, rfl⟩

/-- With unique product ids, an id that names no product leaves fewer rows than ids. -/
theorem selectProducts_length_lt (db : Db) (productIds : List String)
    (hkey : (db.products.map (fun p => p.id)).Nodup)
    (hmissing : ∃ x ∈ productIds, ∀ p ∈ db.products, p.id ≠ x) :
    (selectProducts db productIds).length < productIds.length := by
  obtain ⟨x, hx, hno⟩ := hmissing
  have hsub : (selectProducts db productIds).map (fun p => p.id) ⊆ productIds.erase x := by
    intro y hy
    obtain ⟨hin, p, hp, rfl⟩ := (mem_selectProducts_ids db productIds y).1 hy
    exact (List.mem_erase_of_ne (hno p hp)).2 hin
  have hle := ((selectProducts_ids_nodup db productIds hkey).subperm hsub).length_le
  rw [List.length_map, List.length_erase_of_mem hx] at hle
  have hpos : 0 < productIds.length := List.length_pos_of_mem hx
  omega

/-- With unique product ids, distinct ids that all name a product select exactly the
named products. -/
theorem selectProducts_perm (db : Db) (productIds : List String)
    (hkey : (db.products.map (fun p => p.id)).Nodup)
    (hdistinct : productIds.Nodup)
    (hall : ∀ x ∈ productIds, ∃ p ∈ db.products, p.id = x) :
    ((selectProducts db productIds).map (fun p => p.id)).Perm productIds := by
  refine (List.perm_ext_iff_of_nodup (selectProducts_ids_nodup db productIds hkey) hdistinct).2 ?_
  intro x
  rw [mem_selectProducts_ids]
  exact ⟨fun h => h.1, fun h => ⟨h, hall x h⟩⟩

/-- With unique product ids, a list that repeats an id selects fewer rows than it has
ids. -/
theorem selectProducts_length_lt_of_repeat (db : Db) (productIds : List String)
    (hkey : (db.products.map (fun p => p.id)).Nodup)
    (hrepeat : ¬ productIds.Nodup) :
    (selectProducts db productIds).length < productIds.length := by
  have hsub : (selectProducts db productIds).map (fun p => p.id) ⊆ productIds.dedup := by
    intro y hy
    exact List.mem_dedup.2 ((mem_selectProducts_ids db productIds y).1 hy).1
  have hle := ((selectProducts_ids_nodup db productIds hkey).subperm hsub).length_le
  rw [List.length_map] at hle
  have hlt : productIds.dedup.length < productIds.length := by
    rcases Nat.lt_or_ge productIds.dedup.length productIds.length with h | h
    · exact h
    · exfalso
      apply hrepeat
      have hsl : productIds.dedup.Sublist productIds := List.dedup_sublist productIds
      have heq : productIds.dedup = productIds := hsl.eq_of_length_le h
      rw [← heq]
      exact List.nodup_dedup productIds
  omega

/-- What `toFixed(2)` keeps of a non-negative number below `10^21`: the count of
hundredths nearest to it, the larger on a tie. -/
theorem toFixed2_hundredths (k : Int) (h0 : 0 ≤ k) (h21 : k < 10 ^ 21 * (JS.one : Int)) :
    ∃ h : Nat, JS.toFixed2 (.fin k) = .fixed false h
      ∧ (h : ℚ) = ⌊100 * ((k : ℚ) / (JS.one : ℚ)) + 1 / 2⌋ := by
  obtain ⟨n, rfl⟩ : ∃ n : Nat, k = (n : Int) := ⟨k.toNat, by omega⟩
  have hone : 0 < JS.one := by
    unfold JS.one
    rw [Nat.shiftLeft_eq]
    positivity
  have hlt : ¬ 10 ^ 21 * JS.one ≤ n := by
    have : (n : Int) < ((10 ^ 21 * JS.one : Nat) : Int) := by
      push_cast
      exact h21
    omega
  refine ⟨(200 * n + JS.one) / (2 * JS.one), ?_, ?_⟩
  · simp only [JS.toFixed2, Int.natAbs_ofNat, if_neg hlt]
    simp
  · have hq : (100 : ℚ) * (((n : Int) : ℚ) / (JS.one : ℚ)) + 1 / 2
        = (((200 * n + JS.one : Nat) : ℚ)) / (((2 * JS.one : Nat)) : ℚ) := by
      have hl : (JS.one : ℚ) ≠ 0 := by exact_mod_cast hone.ne'
      push_cast
      field_simp
      ring
    rw [hq, Rat.floor_natCast_div_natCast]
    push_cast
    rfl

/-- The exact rounding behind `totalOf_cents`, in the words of the specification. -/
theorem cents_rounding (c : Nat) :
    (((12 * c + 5) / 10 : Nat) : ℚ) = ⌊100 * ((c : ℚ) / 100 * (12 / 10)) + 1 / 2⌋ := by
  have hq : (100 : ℚ) * ((c : ℚ) / 100 * (12 / 10)) + 1 / 2
      = (((12 * c + 5 : Nat) : ℚ)) / (((10 : Nat)) : ℚ) := by
    push_cast
    field_simp
    ring
  rw [hq, Rat.floor_natCast_div_natCast]
  push_cast
  rfl

/-- Every body that passes the schema is answered 500 with the store as it was: the
select throws on its array parameter and the catch answers. -/
theorem postOrders_validated (isUuid : String → Bool) (db : Db) (body : JVal)
    (fault : Nat → Bool) (newId : String) (now : Nat) (d : CreateOrder)
    (hvalid : CreateOrderSchema isUuid body = some d) :
    postOrders isUuid db body fault newId now
      = (db, ⟨500, .failure "Erreur lors de la création"⟩) := by
  obtain ⟨userId, productIds⟩ := d
  cases hf : fault 0 <;> simp [postOrders, hvalid, hf, sqlArray]

/-- No request to POST /orders inserts a row. -/
theorem postOrders_inserts_nothing (isUuid : String → Bool) (db : Db) (body : JVal)
    (fault : Nat → Bool) (newId : String) (now : Nat) :
    (postOrders isUuid db body fault newId now).1 = db := by
  cases hv : CreateOrderSchema isUuid body with
  | none => simp [postOrders, hv]
  | some d => rw [postOrders_validated isUuid db body fault newId now d hv]

/-- C1, where the code departs from it: the body names the two products priced 10.00 and
15.00, it passes the schema and both ids name a product, and the code's own arithmetic
on the two rows gives subtotal 25 and total 30; but the select binds
`sql.array(productIds, 'uuid')`, the statement throws, and the request is answered 500
with no order stored, on every run. -/
theorem postOrders_priced_is_500 :
    CreateOrderSchema uuidShape (orderBody [lampId, deskId]) = some ⟨"u1", [lampId, deskId]⟩
      ∧ (∀ x ∈ [lampId, deskId], ∃ p ∈ demoDb.products, p.id = x)
      ∧ subtotalOf (selectProducts demoDb [lampId, deskId]) = JS.ofNat 25
      ∧ totalOf (subtotalOf (selectProducts demoDb [lampId, deskId])) = JS.ofNat 30
      ∧ sqlArray [lampId, deskId] (.name "uuid") = none
      ∧ postOrders uuidShape demoDb (orderBody [lampId, deskId]) (fun _ => false) "o1" 7
        = (demoDb, ⟨500, .failure "Erreur lors de la création"⟩) := by
  decide

/-- C2, where the code departs from it: the body passes the schema and names one product
and one id that no product has; no order is stored, as claimed, but the answer is 500
from the catch, not the 400 of the guard, which is never reached because the select
throws on `sql.array(productIds, 'uuid')`. -/
theorem postOrders_unresolved_is_500 :
    CreateOrderSchema uuidShape (orderBody [lampId, ghostId]) = some ⟨"u1", [lampId, ghostId]⟩
      ∧ (∀ p ∈ demoDb.products, p.id ≠ ghostId)
      ∧ postOrders uuidShape demoDb (orderBody [lampId, ghostId]) (fun _ => false) "o1" 7
        = (demoDb, ⟨500, .failure "Erreur lors de la création"⟩) := by
  decide

/-- C3, where the code departs from it: the body passes the schema and names the same
product twice; the request is answered 500 with no order stored, because the select
throws on `sql.array(productIds, 'uuid')`.  The guard behind it compares the number of
rows, 1, with the number of ids, 2, so it would refuse this list of valid products as
invalid. -/
theorem postOrders_repeated_is_500 :
    CreateOrderSchema uuidShape (orderBody [lampId, lampId]) = some ⟨"u1", [lampId, lampId]⟩
      ∧ (∀ x ∈ [lampId, lampId], ∃ p ∈ demoDb.products, p.id = x)
      ∧ postOrders uuidShape demoDb (orderBody [lampId, lampId]) (fun _ => false) "o1" 7
        = (demoDb, ⟨500, .failure "Erreur lors de la création"⟩)
      ∧ (selectProducts demoDb [lampId, lampId]).length = 1
      ∧ [lampId, lampId].length = 2 := by
  decide

/-- C13, where the code departs from it: a body with a string `userId` and an empty
`productIds` passes the schema, and no row against no id would pass the count check
with total 0; but the select binds `sql.array([], 'uuid')`, the statement throws, and
the request is answered 500 with no order stored. -/
theorem postOrders_empty_is_500 :
    CreateOrderSchema uuidShape (orderBody []) = some ⟨"u1", []⟩
      ∧ (selectProducts demoDb []).length = ([] : List String).length
      ∧ totalOf (subtotalOf (selectProducts demoDb [])) = .fin 0
      ∧ sqlArray [] (.name "uuid") = none
      ∧ postOrders uuidShape demoDb (orderBody []) (fun _ => false) "o9" 7
        = (demoDb, ⟨500, .failure "Erreur lors de la création"⟩) := by
  decide

end Postgres

/-! ## Reviews -/

namespace Postgres

theorem one_pos : (0 : Int) < (JS.one : Int) := by
  have h : 0 < JS.one := by
    unfold JS.one
    rw [Nat.shiftLeft_eq]
    positivity
  exact_mod_cast h

theorem asScore_bounds (v : Option JVal) (s : Int) (h : asScore v = some s) :
    1 ≤ s ∧ s ≤ 5 := by
  unfold asScore at h
  split at h
  · split at h
    · rename_i k hk
      obtain ⟨-, hlo, hhi⟩ := hk
      simp only [Option.some.injEq] at h
      subst h
      constructor
      · exact (Int.le_ediv_iff_mul_le one_pos).2 (by simpa using hlo)
      · exact Int.ediv_le_of_le_mul one_pos hhi
    · simp at h
  · simp at h

theorem schema_score_bounds (isUuid : String → Bool) (body : JVal) (d : CreateReview)
    (h : CreateReviewSchema isUuid body = some d) : 1 ≤ d.score ∧ d.score ≤ 5 := by
  unfold CreateReviewSchema at h
  split at h
  · rename_i userId productId score content h1 h2 h3 h4
    simp only [Option.some.injEq] at h
    subst h
    exact asScore_bounds _ _ h3
  · simp at h

theorem sum_bounds (scores : List Int) (hb : ∀ s ∈ scores, 1 ≤ s ∧ s ≤ 5) :
    (scores.length : Int) ≤ scores.sum ∧ scores.sum ≤ 5 * (scores.length : Int) := by
  induction scores with
  | nil => simp
  | cons s rest ih =>
    have hs := hb s (List.mem_cons_self _ _)
    have hr := ih (fun t ht => hb t (List.mem_cons_of_mem _ ht))
    simp only [List.length_cons, List.sum_cons, Nat.cast_add, Nat.cast_one]
    omega

/-- On scores between 1 and 5 the rounded quotient is the half-up rounding of a hundred
times the mean. -/
theorem roundDiv_eq_floor (scores : List Int) (hne : scores ≠ [])
    (hb : ∀ s ∈ scores, 1 ≤ s ∧ s ≤ 5) :
    roundDiv (100 * scores.sum) scores.length
      = ⌊100 * ((scores.sum : ℚ) / (scores.length : ℚ)) + 1 / 2⌋ := by
  obtain ⟨hlo, hhi⟩ := sum_bounds scores hb
  have hlen : 0 < scores.length := List.length_pos.2 hne
  have hsum : 0 < scores.sum := by
    have : (0 : Int) < (scores.length : Int) := by exact_mod_cast hlen
    omega
  obtain ⟨n, hn⟩ : ∃ n : Nat, scores.sum = (n : Int) := ⟨scores.sum.toNat, by omega⟩
  have hnpos : 0 < n := by omega
  have hsign : Int.sign (100 * scores.sum) = 1 := Int.sign_eq_one_of_pos (by omega)
  have habs : (100 * scores.sum).natAbs = 100 * n := by
    rw [hn]
    omega
  unfold roundDiv
  rw [hsign, habs, one_mul, hn]
  have hq : (100 : ℚ) * (((n : Int) : ℚ) / (scores.length : ℚ)) + 1 / 2
      = (((2 * (100 * n) + scores.length : Nat) : ℚ)) / (((2 * scores.length : Nat)) : ℚ) := by
    have hl : (scores.length : ℚ) ≠ 0 := by exact_mod_cast hlen.ne'
    push_cast
    field_simp
    ring
  rw [hq, Rat.floor_natCast_div_natCast]
  push_cast
  rfl

theorem avgNumeric32_of_bounds (scores : List Int) (hne : scores ≠ [])
    (hb : ∀ s ∈ scores, 1 ≤ s ∧ s ≤ 5) :
    avgNumeric32 scores
      = some (some ⟨roundDiv (100 * scores.sum) scores.length, 2⟩) := by
  obtain ⟨hlo, hhi⟩ := sum_bounds scores hb
  have hlen : 0 < scores.length := List.length_pos.2 hne
  have hsum : 0 < scores.sum := by
    have : (0 : Int) < (scores.length : Int) := by exact_mod_cast hlen
    omega
  obtain ⟨n, hn⟩ : ∃ n : Nat, scores.sum = (n : Int) := ⟨scores.sum.toNat, by omega⟩
  have hsign : Int.sign (100 * scores.sum) = 1 := Int.sign_eq_one_of_pos (by omega)
  have habs : (100 * scores.sum).natAbs = 100 * n := by
    rw [hn]
    omega
  have hn5 : n ≤ 5 * scores.length := by omega
  have hsmall : (2 * (100 * n) + scores.length) / (2 * scores.length) < 1000 := by
    rw [Nat.div_lt_iff_lt_mul (by omega)]
    omega
  have hnat : (roundDiv (100 * scores.sum) scores.length).natAbs < 1000 := by
    unfold roundDiv
    rw [hsign, habs, one_mul, Int.natAbs_ofNat]
    exact hsmall
  unfold avgNumeric32
  rw [if_neg (by omega)]
  simp only
  rw [if_neg (by omega)]

theorem selectScores_insert (db : Db) (row : Review) (pid : String) :
    selectScores { db with reviews := db.reviews ++ [row] } pid
      = selectScores db pid ++ (if row.product_id = pid then [row.score] else []) := by
  unfold selectScores
  by_cases h : row.product_id = pid <;> simp [List.filter_append, h]

theorem selectScores_updateAverage (db : Db) (pid qid : String) (a : Option Numeric) :
    selectScores (updateAverage db pid a) qid = selectScores db qid := rfl

theorem updateAverage_twice (db : Db) (pid : String) (a b : Option Numeric) :
    (updateAverage (updateAverage db pid a) pid b).products
      = (updateAverage db pid b).products := by
  simp only [updateAverage, List.map_map]
  apply List.map_congr_left
  intro p _
  by_cases h : p.id = pid <;> simp [h]

/-- One accepted review whose statements do not throw: the row is appended and the
product's average is set to the rounded mean of all its scores. -/
theorem postReviews_step (isUuid : String → Bool) (db : Db) (body : JVal) (newId : String)
    (d : CreateReview) (hvalid : CreateReviewSchema isUuid body = some d)
    (hold : ∀ s ∈ selectScores db d.productId, 1 ≤ s ∧ s ≤ 5) :
    postReviews isUuid db body (fun _ => false) newId
      = (updateAverage
          { db with reviews := db.reviews ++ [⟨newId, d.userId, d.productId, d.score, d.content⟩] }
          d.productId
          (some ⟨roundDiv (100 * (selectScores db d.productId ++ [d.score]).sum)
            (selectScores db d.productId ++ [d.score]).length, 2⟩),
        ⟨201, .review ⟨newId, d.userId, d.productId, d.score, d.content⟩⟩) := by
  have hs := schema_score_bounds isUuid body d hvalid
  have hb : ∀ s ∈ selectScores db d.productId ++ [d.score], 1 ≤ s ∧ s ≤ 5 := by
    intro s hs'
    rcases List.mem_append.1 hs' with h | h
    · exact hold s h
    · simp only [List.mem_singleton] at h
      subst h
      exact hs
  have havg := avgNumeric32_of_bounds (selectScores db d.productId ++ [d.score]) (by simp) hb
  obtain ⟨userId, productId, score, content⟩ := d
  simp only [postReviews, hvalid, selectScores_insert, if_true] at havg ⊢
  simp [havg]

/-- Reviews of one product served in sequence: the product's average ends as the rounded
mean of the scores it had and those posted. -/
theorem postReviewsSeq_products (isUuid : String → Bool) (pid : String)
    (reqs : List (JVal × String)) :
    ∀ db : Db,
      (∀ q ∈ reqs, ∃ d, CreateReviewSchema isUuid q.1 = some d ∧ d.productId = pid) →
      (∀ s ∈ selectScores db pid, 1 ≤ s ∧ s ≤ 5) →
      reqs ≠ [] →
      (postReviewsSeq isUuid db reqs).products
        = (updateAverage db pid
            (some ⟨roundDiv
                (100 * (selectScores db pid ++ reqs.filterMap
                  (fun q => (CreateReviewSchema isUuid q.1).map (fun d => d.score))).sum)
                (selectScores db pid ++ reqs.filterMap
                  (fun q => (CreateReviewSchema isUuid q.1).map (fun d => d.score))).length,
              2⟩)).products := by
  induction reqs with
  | nil => intro db _ _ h; exact absurd rfl h
  | cons q rest ih =>
    intro db hvalid hold _
    obtain ⟨body, newId⟩ := q
    obtain ⟨d, hd, hpid⟩ := hvalid (body, newId) (List.mem_cons_self _ _)
    simp only at hd
    subst hpid
    have hstep := postReviews_step isUuid db body newId d hd hold
    have hsb := schema_score_bounds isUuid body d hd
    simp only [postReviewsSeq, hstep, List.filterMap_cons, hd, Option.map_some']
    by_cases hrest : rest = []
    · subst hrest
      simp [postReviewsSeq, updateAverage]
    · have hscores : selectScores (updateAverage
            { db with reviews := db.reviews ++ [⟨newId, d.userId, d.productId, d.score, d.content⟩] }
            d.productId
            (some ⟨roundDiv (100 * (selectScores db d.productId ++ [d.score]).sum)
              (selectScores db d.productId ++ [d.score]).length, 2⟩)) d.productId
          = selectScores db d.productId ++ [d.score] := by
        rw [selectScores_updateAverage, selectScores_insert]
        simp
      have hold1 : ∀ s ∈ selectScores (updateAverage
            { db with reviews := db.reviews ++ [⟨newId, d.userId, d.productId, d.score, d.content⟩] }
            d.productId
            (some ⟨roundDiv (100 * (selectScores db d.productId ++ [d.score]).sum)
              (selectScores db d.productId ++ [d.score]).length, 2⟩)) d.productId,
          1 ≤ s ∧ s ≤ 5 := by
        rw [hscores]
        intro s hs
        rcases List.mem_append.1 hs with h | h
        · exact hold s h
        · simp only [List.mem_singleton] at h
          subst h
          exact hsb
      rw [ih _ (fun q hq => hvalid q (List.mem_cons_of_mem _ hq)) hold1 hrest, hscores,
        updateAverage_twice]
      simp [updateAverage, List.append_assoc]

theorem filterMap_scores_length (isUuid : String → Bool) (pid : String)
    (reqs : List (JVal × String))
    (hvalid : ∀ q ∈ reqs, ∃ d, CreateReviewSchema isUuid q.1 = some d ∧ d.productId = pid) :
    (reqs.filterMap (fun q => (CreateReviewSchema isUuid q.1).map (fun d => d.score))).length
        = reqs.length
      ∧ ∀ s ∈ reqs.filterMap (fun q => (CreateReviewSchema isUuid q.1).map (fun d => d.score)),
          1 ≤ s ∧ s ≤ 5 := by
  induction reqs with
  | nil => simp
  | cons q rest ih =>
    obtain ⟨d, hd, -⟩ := hvalid q (List.mem_cons_self _ _)
    have hr := ih (fun q hq => hvalid q (List.mem_cons_of_mem _ hq))
    have hsb := schema_score_bounds isUuid q.1 d hd
    simp only [List.filterMap_cons, hd, Option.map_some', List.length_cons, hr.1,
      List.mem_cons, forall_eq_or_imp, true_and]
    exact ⟨hsb, hr.2⟩

/-- C4: for a product P that exists and has no review yet, and a non-empty sequence of
valid review requests for P served one after the other (no statement throwing), the
store ends with P.average_score equal to the mean of the posted scores rounded to two
decimals (the numeric with 2 decimals whose hundredths are the half-up rounding of
100 times the mean), and every other product row is unchanged. -/
theorem postReviews_average (isUuid : String → Bool) (db : Db) (pid : String)
    (reqs : List (JVal × String))
    (hexists : ∃ p ∈ db.products, p.id = pid)
    (hnone : ∀ r ∈ db.reviews, r.product_id ≠ pid)
    (hne : reqs ≠ [])
    (hvalid : ∀ q ∈ reqs, ∃ d, CreateReviewSchema isUuid q.1 = some d ∧ d.productId = pid) :
    ∃ (scores : List Int) (h : Int),
      scores = reqs.filterMap (fun q => (CreateReviewSchema isUuid q.1).map (fun d => d.score))
      ∧ scores.length = reqs.length
      ∧ (∀ s ∈ scores, 1 ≤ s ∧ s ≤ 5)
      ∧ h = ⌊100 * ((scores.sum : ℚ) / (scores.length : ℚ)) + 1 / 2⌋
      ∧ (postReviewsSeq isUuid db reqs).products
          = db.products.map
              (fun p => if p.id = pid then { p with average_score := some ⟨h, 2⟩ } else p)
      ∧ (∃ p ∈ (postReviewsSeq isUuid db reqs).products,
          p.id = pid ∧ p.average_score = some ⟨h, 2⟩)
      ∧ (∀ p ∈ db.products, p.id ≠ pid → p ∈ (postReviewsSeq isUuid db reqs).products) := by
  have hsel : selectScores db pid = [] := by
    unfold selectScores
    rw [List.map_eq_nil_iff, List.filter_eq_nil_iff]
    intro r hr
    simpa using hnone r hr
  obtain ⟨hlen, hb⟩ := filterMap_scores_length isUuid pid reqs hvalid
  have hne2 : reqs.filterMap
      (fun q => (CreateReviewSchema isUuid q.1).map (fun d => d.score)) ≠ [] := by
    intro h
    rw [h] at hlen
    exact hne (List.length_eq_zero.1 hlen.symm)
  have hprod := postReviewsSeq_products isUuid pid reqs db hvalid (by simp [hsel]) hne
  rw [hsel, List.nil_append] at hprod
  have hfin : (postReviewsSeq isUuid db reqs).products
      = db.products.map (fun p => if p.id = pid then
          { p with average_score := some ⟨roundDiv
            (100 * (reqs.filterMap
              (fun q => (CreateReviewSchema isUuid q.1).map (fun d => d.score))).sum)
            (reqs.filterMap
              (fun q => (CreateReviewSchema isUuid q.1).map (fun d => d.score))).length, 2⟩ }
          else p) := hprod
  refine ⟨_, _, rfl, hlen, hb, roundDiv_eq_floor _ hne2 hb, hfin, ?_, ?_⟩
  · obtain ⟨p, hp, hpid⟩ := hexists
    rw [hfin]
    refine ⟨_, List.mem_map_of_mem _ hp, ?_⟩
    simp [hpid]
  · intro p hp hpid
    rw [hfin]
    exact List.mem_map.2 ⟨p, hp, by simp [hpid]⟩

/-- Scores 5, 4, 4 on the lamp: mean 4.333..., stored 4.33; the desk is untouched. -/
theorem postReviews_average_witness :
    (postReviewsSeq uuidShape demoDb demoReviews).products
      = [⟨lampId, "lamp", "a lamp", ⟨1000, 2⟩, some ⟨433, 2⟩⟩,
         ⟨deskId, "desk", "a desk", ⟨1500, 2⟩, none⟩] := by
  obtain ⟨scores, h, hs, -, -, hh, hfin, -, -⟩ := postReviews_average uuidShape demoDb lampId
    demoReviews (by decide) (by decide) (List.cons_ne_nil _ _)
    (by
      intro q hq
      simp only [demoReviews, List.mem_cons, List.mem_singleton, List.not_mem_nil,
        or_false] at hq
      rcases hq with rfl | rfl | rfl
      · exact ⟨⟨"33333333-3333-4333-8333-333333333333", lampId, 5, "ok"⟩, by decide, rfl⟩
      · exact ⟨⟨"33333333-3333-4333-8333-333333333333", lampId, 4, "ok"⟩, by decide, rfl⟩
      · exact ⟨⟨"33333333-3333-4333-8333-333333333333", lampId, 4, "ok"⟩, by decide, rfl⟩)
  have hscores : scores = [5, 4, 4] := by rw [hs]; decide
  have hval : h = 433 := by
    have : (⌊100 * ((([5, 4, 4] : List Int).sum : ℚ) / (([5, 4, 4] : List Int).length : ℚ))
        + 1 / 2⌋ : Int) = 433 := by
      rw [Int.floor_eq_iff]
      norm_num
    rw [hh, hscores]
    exact this
  rw [hfin, hval]
  decide

/-- C5, as stated, fails: the insert succeeds, the average query throws, and the caller
is answered 500 with the error body although the review row is stored. -/
theorem postReviews_recompute_failure_is_500 :
    postReviews uuidShape demoDb (reviewBody lampId 5) (fun i => i == 1) "r1"
      = ({ demoDb with
            reviews := [⟨"r1", "33333333-3333-4333-8333-333333333333", lampId, 5, "ok"⟩] },
          ⟨500, .failure "Erreur création review"⟩) := by
  decide

/-- C5, amended: when the review insert succeeds and the average query, its cast or the
product update then throws, the caller is answered 500 with the error body; the inserted
review remains stored and no product row is changed. -/
theorem postReviews_recompute_failure (isUuid : String → Bool) (db : Db) (body : JVal)
    (fault : Nat → Bool) (newId : String) (d : CreateReview)
    (hvalid : CreateReviewSchema isUuid body = some d)
    (hinsert : fault 0 = false)
    (hfail : fault 1 = true ∨ fault 2 = true
      ∨ avgNumeric32 (selectScores
          { db with reviews := db.reviews ++ [⟨newId, d.userId, d.productId, d.score, d.content⟩] }
          d.productId) = none) :
    postReviews isUuid db body fault newId
      = ({ db with reviews := db.reviews ++ [⟨newId, d.userId, d.productId, d.score, d.content⟩] },
          ⟨500, .failure "Erreur création review"⟩) := by
  obtain ⟨userId, productId, score, content⟩ := d
  simp only [postReviews, hvalid, hinsert, Bool.false_eq_true, if_false]
  by_cases h1 : fault 1 = true
  · simp [h1]
  · simp only [h1, if_false]
    rcases hfail with h | h | h
    · exact absurd h h1
    · simp only [h, if_true]
      cases avgNumeric32 (selectScores
        { db with reviews := db.reviews ++ [⟨newId, userId, productId, score, content⟩] }
        productId) <;> rfl
    · simp only at h
      rw [h]
      simp

/-- The update of the product throws after the insert and the average query succeeded. -/
theorem postReviews_recompute_failure_witness :
    postReviews uuidShape demoDb (reviewBody deskId 3) (fun i => i == 2) "r9"
      = ({ demoDb with
            reviews := demoDb.reviews
              ++ [⟨"r9", "33333333-3333-4333-8333-333333333333", deskId, 3, "ok"⟩] },
          ⟨500, .failure "Erreur création review"⟩) :=
  postReviews_recompute_failure uuidShape demoDb (reviewBody deskId 3) (fun i => i == 2) "r9"
    ⟨"33333333-3333-4333-8333-333333333333", deskId, 3, "ok"⟩ (by decide) (by decide)
    (Or.inr (Or.inl (by decide)))

end Postgres

/-! ## Catalog mutations and their broadcast -/

namespace Mongo

theorem updateFirst_of_none {α : Type} (p : α → Bool) (f : α → α) (l : List α)
    (h : l.any p = false) : updateFirst p f l = l := by
  induction l with
  | nil => rfl
  | cons x xs ih =>
    simp only [List.any_cons, Bool.or_eq_false_iff] at h
    simp [updateFirst, h.1, ih h.2]

theorem any_id_false (products : List Product) (key : String)
    (h : ∀ p ∈ products, p._id ≠ key) :
    products.any (fun p => decide (p._id = key)) = false := by
  rw [List.any_eq_false]
  intro p hp
  simpa using h p hp

theorem any_id_true (products : List Product) (key : String)
    (h : ∃ p ∈ products, p._id = key) :
    products.any (fun p => decide (p._id = key)) = true := by
  rw [List.any_eq_true]
  obtain ⟨p, hp, hk⟩ := h
  exact ⟨p, hp, by simpa using hk⟩

/-- The shapes a request's trace can take. -/
theorem trace_shapes (oid : String → Option String) (db : Db) (w : World) (req : Request) :
    (handle oid db w req).trace = []
      ∨ (∃ m c, (handle oid db w req).trace = [.store m c none] ∧ w.storeThrows = true)
      ∨ (∃ m c, (handle oid db w req).trace = [.store m c (some 0)])
      ∨ (∃ m c ch ev, (handle oid db w req).trace
            = [.store m c (some 1), .emit ch ev w.emitThrows] ∧ w.storeThrows = false) := by
  cases req with
  | postProducts body =>
    simp only [handle]
    cases h1 : CreateProductSchema body with
    | none => left; simp only [postProduct, h1]
    | some d =>
      cases h2 : mapObjectId oid d.categoryIds with
      | none => left; simp only [postProduct, h1, h2]
      | some cs =>
        cases hs : w.storeThrows with
        | true =>
          right; left
          exact ⟨"insertOne", "products", by simp only [postProduct, h1, h2, hs, if_true], rfl⟩
        | false =>
          right; right; right
          refine ⟨"insertOne", "products", "products",
            JVal.obj [("type", .str "create"), ("product", productJson w.insertedId d)], ?_, rfl⟩
          cases he : w.emitThrows <;>
            simp only [postProduct, h1, h2, hs, he, if_true, if_false, Bool.false_eq_true]
  | putProducts id body =>
    simp only [handle]
    cases h0 : oid id with
    | none => left; simp only [putProduct, h0]
    | some key =>
      cases h1 : CreateProductSchema body with
      | none => left; simp only [putProduct, h0, h1]
      | some d =>
        cases h2 : mapObjectId oid d.categoryIds with
        | none => left; simp only [putProduct, h0, h1, h2]
        | some cs =>
          cases hs : w.storeThrows with
          | true =>
            right; left
            exact ⟨"updateOne", "products", by simp only [putProduct, h0, h1, h2, hs, if_true], rfl⟩
          | false =>
            cases hm : db.products.any (fun p => decide (p._id = key)) with
            | false =>
              right; right; left
              exact ⟨"updateOne", "products", by
                simp only [putProduct, h0, h1, h2, hs, hm, if_true, if_false,
                  Bool.false_eq_true]⟩
            | true =>
              right; right; right
              refine ⟨"updateOne", "products", "products",
                JVal.obj [("type", .str "update"), ("product", productJson id d)], ?_, rfl⟩
              cases he : w.emitThrows <;>
                simp only [putProduct, h0, h1, h2, hs, hm, he, if_true, if_false,
                  Bool.false_eq_true, one_ne_zero]
  | deleteProducts id =>
    simp only [handle]
    cases h0 : oid id with
    | none => left; simp only [deleteProduct, h0]
    | some key =>
      cases hs : w.storeThrows with
      | true =>
        right; left
        exact ⟨"deleteOne", "products", by simp only [deleteProduct, h0, hs, if_true], rfl⟩
      | false =>
        cases hm : db.products.any (fun p => decide (p._id = key)) with
        | false =>
          right; right; left
          exact ⟨"deleteOne", "products", by
            simp only [deleteProduct, h0, hs, hm, if_true, if_false, Bool.false_eq_true]⟩
        | true =>
          right; right; right
          refine ⟨"deleteOne", "products", "products",
            JVal.obj [("type", .str "delete"), ("id", .str id)], ?_, rfl⟩
          cases he : w.emitThrows <;>
            simp only [deleteProduct, h0, hs, hm, he, if_true, if_false,
              Bool.false_eq_true, one_ne_zero]
  | postCategories body =>
    simp only [handle]
    cases h1 : CreateCategorySchema body with
    | none => left; simp only [postCategory, h1]
    | some name =>
      cases hs : w.storeThrows with
      | true =>
        right; left
        exact ⟨"insertOne", "categories", by simp only [postCategory, h1, hs, if_true], rfl⟩
      | false =>
        right; right; right
        refine ⟨"insertOne", "categories", "categories",
          JVal.obj [("type", .str "create"),
            ("category", JVal.obj [("_id", .str w.insertedId), ("name", .str name)])], ?_, rfl⟩
        cases he : w.emitThrows <;>
          simp only [postCategory, h1, hs, he, if_true, if_false, Bool.false_eq_true]

theorem not_isEmit_of_shape (t : List Effect)
    (h : t = [] ∨ (∃ m c, t = [.store m c none]) ∨ (∃ m c, t = [.store m c (some 0)])) :
    ∀ e ∈ t, e.isEmit = false := by
  rcases h with h | ⟨m, c, h⟩ | ⟨m, c, h⟩ <;> subst h <;> simp [Effect.isEmit]

theorem putProduct_absent_trace (oid : String → Option String) (db : Db) (id : String)
    (body : JVal) (w : World) (key : String) (h0 : oid id = some key)
    (habsent : ∀ p ∈ db.products, p._id ≠ key) :
    ∀ e ∈ (putProduct oid db id body w).trace, e.isEmit = false := by
  have hm := any_id_false db.products key habsent
  apply not_isEmit_of_shape
  cases h1 : CreateProductSchema body with
  | none => left; simp only [putProduct, h0, h1]
  | some d =>
    cases h2 : mapObjectId oid d.categoryIds with
    | none => left; simp only [putProduct, h0, h1, h2]
    | some cs =>
      cases hs : w.storeThrows with
      | true =>
        right; left
        exact ⟨"updateOne", "products", by simp only [putProduct, h0, h1, h2, hs, if_true]⟩
      | false =>
        right; right
        exact ⟨"updateOne", "products", by
          simp only [putProduct, h0, h1, h2, hs, hm, if_true, if_false, Bool.false_eq_true]⟩

theorem deleteProduct_absent (oid : String → Option String) (db : Db) (id : String)
    (w : World) (key : String) (h0 : oid id = some key) (hs : w.storeThrows = false)
    (habsent : ∀ p ∈ db.products, p._id ≠ key) :
    deleteProduct oid db id w
      = ⟨db, [.store "deleteOne" "products" (some 0)], ⟨404, .text "Produit introuvable"⟩⟩ := by
  have hm := any_id_false db.products key habsent
  have herase : db.products.eraseP (fun p => decide (p._id = key)) = db.products := by
    apply List.eraseP_of_forall_not
    intro p hp
    simpa using habsent p hp
  simp only [deleteProduct, h0, hs, hm, herase, if_true, if_false, Bool.false_eq_true]

theorem deleteProduct_present (oid : String → Option String) (db : Db) (id : String)
    (w : World) (key : String) (h0 : oid id = some key) (hs : w.storeThrows = false)
    (hpresent : ∃ p ∈ db.products, p._id = key) :
    deleteProduct oid db id w
      = ⟨{ db with products := db.products.eraseP (fun p => decide (p._id = key)) },
          [.store "deleteOne" "products" (some 1),
            .emit "products" (JVal.obj [("type", .str "delete"), ("id", .str id)]) w.emitThrows],
          if w.emitThrows then ⟨500, .mongoError⟩ else ⟨204, .empty⟩⟩ := by
  have hm := any_id_true db.products key hpresent
  cases he : w.emitThrows <;>
    simp only [deleteProduct, h0, hs, hm, he, if_true, if_false, Bool.false_eq_true,
      one_ne_zero]

/-- C6: in every product create, update or delete request and every category create
request, an emitted event comes after a store call that was acknowledged with a document
inserted, matched or deleted; a request that fails validation makes no store call and
emits nothing; nothing is emitted when the store call throws, nor when an update or a
delete addresses an id that no product has. -/
theorem emit_only_after_acknowledgement (oid : String → Option String) (db : Db) (w : World)
    (req : Request) :
    (∀ (i : Nat) (e : Effect), (handle oid db w req).trace[i]? = some e → e.isEmit = true →
        ∃ (j : Nat) (a : Effect), j < i ∧ (handle oid db w req).trace[j]? = some a ∧ a.isAcked = true)
      ∧ (req.invalid oid = true → (handle oid db w req).trace = [])
      ∧ (w.storeThrows = true → ∀ e ∈ (handle oid db w req).trace, e.isEmit = false)
      ∧ (∀ id key, req.pathId = some id → oid id = some key →
          (∀ p ∈ db.products, p._id ≠ key) →
          ∀ e ∈ (handle oid db w req).trace, e.isEmit = false) := by
  refine ⟨?_, ?_, ?_, ?_⟩
  · intro i e hi he
    rcases trace_shapes oid db w req with h | ⟨m, c, h, -⟩ | ⟨m, c, h⟩ | ⟨m, c, ch, ev, h, -⟩
    · rw [h] at hi
      simp at hi
    · rw [h] at hi
      cases i with
      | zero =>
        simp only [List.getElem?_cons_zero, Option.some.injEq] at hi
        subst hi
        simp [Effect.isEmit] at he
      | succ n => simp at hi
    · rw [h] at hi
      cases i with
      | zero =>
        simp only [List.getElem?_cons_zero, Option.some.injEq] at hi
        subst hi
        simp [Effect.isEmit] at he
      | succ n => simp at hi
    · rw [h] at hi ⊢
      cases i with
      | zero =>
        simp only [List.getElem?_cons_zero, Option.some.injEq] at hi
        subst hi
        simp [Effect.isEmit] at he
      | succ n =>
        exact ⟨0, .store m c (some 1), Nat.succ_pos n, rfl, by simp [Effect.isAcked]⟩
  · intro hinv
    cases req with
    | postProducts body =>
      simp only [Request.invalid, Option.isNone_iff_eq_none] at hinv
      simp only [handle, postProduct, hinv]
    | putProducts id body =>
      simp only [Request.invalid, Bool.or_eq_true, Option.isNone_iff_eq_none] at hinv
      simp only [handle]
      cases h0 : oid id with
      | none => simp only [putProduct, h0]
      | some key =>
        rcases hinv with h | h
        · rw [h0] at h
          exact absurd h (by simp)
        · simp only [putProduct, h0, h]
    | deleteProducts id =>
      simp only [Request.invalid, Option.isNone_iff_eq_none] at hinv
      simp only [handle, deleteProduct, hinv]
    | postCategories body =>
      simp only [Request.invalid, Option.isNone_iff_eq_none] at hinv
      simp only [handle, postCategory, hinv]
  · intro hs
    apply not_isEmit_of_shape
    rcases trace_shapes oid db w req with h | ⟨m, c, h, -⟩ | ⟨m, c, h⟩ | ⟨m, c, ch, ev, h, hf⟩
    · exact Or.inl h
    · exact Or.inr (Or.inl ⟨m, c, h⟩)
    · exact Or.inr (Or.inr ⟨m, c, h⟩)
    · rw [hs] at hf
      exact absurd hf (by simp)
  · intro id key hpath h0 habsent
    cases req with
    | postProducts body => simp [Request.pathId] at hpath
    | putProducts id2 body =>
      simp only [Request.pathId, Option.some.injEq] at hpath
      subst hpath
      exact putProduct_absent_trace oid db id2 body w key h0 habsent
    | deleteProducts id2 =>
      simp only [Request.pathId, Option.some.injEq] at hpath
      subst hpath
      simp only [handle]
      apply not_isEmit_of_shape
      cases hs : w.storeThrows with
      | true =>
        right; left
        exact ⟨"deleteOne", "products", by simp only [deleteProduct, h0, hs, if_true]⟩
      | false =>
        right; right
        exact ⟨"deleteOne", "products", by rw [deleteProduct_absent oid db id2 w key h0 hs habsent]⟩
    | postCategories body => simp [Request.pathId] at hpath

/-- C7, as stated, fails: the insert is acknowledged and the emit throws, and the caller
is answered 500 instead of the 201 it gets when the emit succeeds; so for a category. -/
theorem emit_failure_is_500 :
    ((handle hexOid demoCatalog ⟨false, true, strayId⟩ (.postProducts stoolBody)).trace.head?.map
        Effect.isAcked = some true
      ∧ (handle hexOid demoCatalog ⟨false, true, strayId⟩ (.postProducts stoolBody)).response.status
        = 500
      ∧ (handle hexOid demoCatalog ⟨false, false, strayId⟩ (.postProducts stoolBody)).response.status
        = 201)
    ∧ ((handle hexOid demoCatalog ⟨false, true, strayId⟩
          (.postCategories (.obj [("name", .str "garden")]))).response.status = 500
      ∧ (handle hexOid demoCatalog ⟨false, false, strayId⟩
          (.postCategories (.obj [("name", .str "garden")]))).response.status = 201) := by
  decide

/-- C7, amended: for a product or category mutation request whose store call is
acknowledged with a document inserted, matched or deleted, the write stands whatever
the publish outcome; the caller receives the success status when the emit does not
throw, and the 500 error response when it throws. -/
theorem acknowledged_write_response (oid : String → Option String) (db : Db) (w : World)
    (req : Request)
    (hack : ∃ a ∈ (handle oid db w req).trace, a.isAcked = true) :
    (handle oid db w req).db = (handle oid db { w with emitThrows := false } req).db
      ∧ (handle oid db w req).db = (handle oid db { w with emitThrows := true } req).db
      ∧ (w.emitThrows = false → (handle oid db w req).response.status = req.successStatus)
      ∧ (w.emitThrows = true → (handle oid db w req).response.status = 500) := by
  cases req with
  | postProducts body =>
    simp only [handle] at hack ⊢
    cases h1 : CreateProductSchema body with
    | none => simp [postProduct, h1] at hack
    | some d =>
      cases h2 : mapObjectId oid d.categoryIds with
      | none => simp [postProduct, h1, h2] at hack
      | some cs =>
        cases hs : w.storeThrows with
        | true => simp [postProduct, h1, h2, hs, Effect.isAcked] at hack
        | false =>
          cases he : w.emitThrows <;>
            simp [postProduct, h1, h2, hs, he, Request.successStatus]
  | putProducts id body =>
    simp only [handle] at hack ⊢
    cases h0 : oid id with
    | none => simp [putProduct, h0] at hack
    | some key =>
      cases h1 : CreateProductSchema body with
      | none => simp [putProduct, h0, h1] at hack
      | some d =>
        cases h2 : mapObjectId oid d.categoryIds with
        | none => simp [putProduct, h0, h1, h2] at hack
        | some cs =>
          cases hs : w.storeThrows with
          | true => simp [putProduct, h0, h1, h2, hs, Effect.isAcked] at hack
          | false =>
            cases hm : db.products.any (fun p => decide (p._id = key)) with
            | false =>
              simp only [putProduct, h0, h1, h2, hs, hm, if_true, if_false,
                Bool.false_eq_true] at hack
              simp [Effect.isAcked] at hack
            | true =>
              cases he : w.emitThrows <;>
                simp only [putProduct, h0, h1, h2, hs, hm, he, if_true, if_false,
                  Bool.false_eq_true, one_ne_zero, Request.successStatus] <;> simp
  | deleteProducts id =>
    simp only [handle] at hack ⊢
    cases h0 : oid id with
    | none => simp [deleteProduct, h0] at hack
    | some key =>
      cases hs : w.storeThrows with
      | true => simp [deleteProduct, h0, hs, Effect.isAcked] at hack
      | false =>
        cases hm : db.products.any (fun p => decide (p._id = key)) with
        | false =>
          simp only [deleteProduct, h0, hs, hm, if_true, if_false,
            Bool.false_eq_true] at hack
          simp [Effect.isAcked] at hack
        | true =>
          cases he : w.emitThrows <;>
            simp only [deleteProduct, h0, hs, hm, he, if_true, if_false,
              Bool.false_eq_true, one_ne_zero, Request.successStatus] <;> simp
  | postCategories body =>
    simp only [handle] at hack ⊢
    cases h1 : CreateCategorySchema body with
    | none => simp [postCategory, h1] at hack
    | some name =>
      cases hs : w.storeThrows with
      | true => simp [postCategory, h1, hs, Effect.isAcked] at hack
      | false =>
        cases he : w.emitThrows <;>
          simp [postCategory, h1, hs, he, Request.successStatus]

/-- The stored chair is updated while the emit throws: status 500, and the store holds
the update all the same. -/
theorem acknowledged_write_response_witness :
    (handle hexOid demoCatalog ⟨false, true, strayId⟩ (.putProducts chairId stoolBody)).db
        = (handle hexOid demoCatalog ⟨false, false, strayId⟩ (.putProducts chairId stoolBody)).db
      ∧ (handle hexOid demoCatalog ⟨false, true, strayId⟩
          (.putProducts chairId stoolBody)).db.products
        = [⟨chairId, "stool", "a stool", JS.ofNat 12, ["64b7f0c2a1d3e4f5a6b7c8aa"]⟩]
      ∧ (handle hexOid demoCatalog ⟨false, true, strayId⟩
          (.putProducts chairId stoolBody)).response.status = 500 := by
  have h := acknowledged_write_response hexOid demoCatalog ⟨false, true, strayId⟩
    (.putProducts chairId stoolBody)
    ⟨.store "updateOne" "products" (some 1), List.Mem.head _, rfl⟩
  exact ⟨h.1, by decide, h.2.2.2 rfl⟩

/-- C8: for a well-formed product id, when neither the store call nor the emit throws,
DELETE /products/:id answers 404 with no event and the store unchanged when no product
has that id; when a product has it, the answer is 204, the product is removed, and
exactly one event is emitted, `{ type: "delete", id }`, which carries the id and no other
product field. -/
theorem deleteProduct_outcomes (oid : String → Option String) (db : Db) (id : String)
    (w : World) (key : String) (hid : oid id = some key) (hstore : w.storeThrows = false)
    (hemit : w.emitThrows = false) :
    ((∀ p ∈ db.products, p._id ≠ key) →
        (deleteProduct oid db id w).response.status = 404
        ∧ (deleteProduct oid db id w).trace.filter Effect.isEmit = []
        ∧ (deleteProduct oid db id w).db = db)
      ∧ ((∃ p ∈ db.products, p._id = key) →
        (deleteProduct oid db id w).response.status = 204
        ∧ (deleteProduct oid db id w).trace
          = [.store "deleteOne" "products" (some 1),
              .emit "products" (JVal.obj [("type", .str "delete"), ("id", .str id)]) false]
        ∧ (deleteProduct oid db id w).trace.filter Effect.isEmit
          = [.emit "products" (JVal.obj [("type", .str "delete"), ("id", .str id)]) false]
        ∧ (deleteProduct oid db id w).db.products
          = db.products.eraseP (fun p => decide (p._id = key))
        ∧ (deleteProduct oid db id w).db.categories = db.categories) := by
  constructor
  · intro habsent
    rw [deleteProduct_absent oid db id w key hid hstore habsent]
    simp [Effect.isEmit]
  · intro hpresent
    rw [deleteProduct_present oid db id w key hid hstore hpresent, hemit]
    simp [Effect.isEmit]

/-- Deleting the stored chair, and deleting an id no product has. -/
theorem deleteProduct_outcomes_witness :
    ((deleteProduct hexOid demoCatalog strayId ⟨false, false, strayId⟩).response.status = 404
      ∧ (deleteProduct hexOid demoCatalog strayId ⟨false, false, strayId⟩).db = demoCatalog)
    ∧ ((deleteProduct hexOid demoCatalog chairId ⟨false, false, strayId⟩).response.status = 204
      ∧ (deleteProduct hexOid demoCatalog chairId ⟨false, false, strayId⟩).trace.filter
          Effect.isEmit
        = [.emit "products" (JVal.obj [("type", .str "delete"), ("id", .str chairId)]) false]
      ∧ (deleteProduct hexOid demoCatalog chairId ⟨false, false, strayId⟩).db.products = []) := by
  have h1 := (deleteProduct_outcomes hexOid demoCatalog strayId ⟨false, false, strayId⟩
    strayId (by decide) rfl rfl).1 (by decide)
  have h2 := (deleteProduct_outcomes hexOid demoCatalog chairId ⟨false, false, strayId⟩
    chairId (by decide) rfl rfl).2 ⟨_, List.Mem.head _, rfl⟩
  exact ⟨⟨h1.1, h1.2.2⟩, ⟨h2.1, h2.2.2.1, by decide⟩⟩

end Mongo

/-! ## Goal details -/

namespace Analytics

/-- C9: GET /goals/:goalId/details answers 400 when the id is not a well-formed
reference; when it is and no store call throws, it answers 404 when no goal has that id,
and otherwise 200 with a goal of that id, the views whose visitor is that goal's visitor
and the actions whose visitor is that goal's visitor: all of them and no other, each as
often as stored. -/
theorem getGoalDetails_outcomes (oid : String → Option String) (db : Db) (goalId : String)
    (fault : Nat → Bool) :
    (oid goalId = none → getGoalDetails oid db goalId fault = ⟨400, .text "ID invalide"⟩)
      ∧ (∀ key, oid goalId = some key → fault 0 = false →
          (∀ g ∈ db.goals, g._id ≠ key) →
          getGoalDetails oid db goalId fault = ⟨404, .text "Goal non trouvé"⟩)
      ∧ (∀ key, oid goalId = some key → fault 0 = false → fault 1 = false → fault 2 = false →
          (∃ g ∈ db.goals, g._id = key) →
          ∃ (goal : Goal) (views : List View) (actions : List Action),
            getGoalDetails oid db goalId fault = ⟨200, .details goal views actions⟩
            ∧ goal ∈ db.goals ∧ goal._id = key
            ∧ views = db.views.filter (fun v => decide (v.visitor = goal.visitor))
            ∧ actions = db.actions.filter (fun a => decide (a.visitor = goal.visitor))
            ∧ (∀ v, v ∈ views ↔ v ∈ db.views ∧ v.visitor = goal.visitor)
            ∧ (∀ a, a ∈ actions ↔ a ∈ db.actions ∧ a.visitor = goal.visitor)) := by
  refine ⟨?_, ?_, ?_⟩
  · intro h
    simp only [getGoalDetails, h]
  · intro key h h0 habsent
    have hfind : db.goals.find? (fun g => decide (g._id = key)) = none := by
      rw [List.find?_eq_none]
      intro g hg
      simpa using habsent g hg
    simp only [getGoalDetails, h, h0, hfind, if_false, Bool.false_eq_true]
  · intro key h h0 h1 h2 hpresent
    cases hfind : db.goals.find? (fun g => decide (g._id = key)) with
    | none =>
      rw [List.find?_eq_none] at hfind
      obtain ⟨g, hg, hk⟩ := hpresent
      exact absurd (by simpa using hk) (hfind g hg)
    | some goal =>
      refine ⟨goal, _, _, ?_, List.mem_of_find?_eq_some hfind, ?_, rfl, rfl, ?_, ?_⟩
      · simp only [getGoalDetails, h, h0, h1, h2, hfind, if_false, Bool.false_eq_true,
          Bool.or_self]
      · simpa using List.find?_some hfind
      · intro v
        simp [List.mem_filter]
      · intro a
        simp [List.mem_filter]

/-- A visitor with 3 views and 2 actions among other visitors' events: exactly those. -/
theorem getGoalDetails_outcomes_witness :
    ∃ (goal : Goal) (views : List View) (actions : List Action),
      getGoalDetails Mongo.hexOid demoEvents goalKey (fun _ => false)
        = ⟨200, .details goal views actions⟩
      ∧ goal.visitor = "ann"
      ∧ views.map (fun v => v._id) = ["v1", "v3", "v5"]
      ∧ actions.map (fun a => a._id) = ["a2", "a3"] := by
  obtain ⟨goal, views, actions, hresp, -, -, hv, ha, -, -⟩ :=
    (getGoalDetails_outcomes Mongo.hexOid demoEvents goalKey (fun _ => false)).2.2 goalKey
      (by decide) rfl rfl rfl ⟨_, List.Mem.head _, rfl⟩
  have hgoal : goal = ⟨goalKey, "web", "/buy", "purchase", "ann", 0, .obj []⟩ := by
    have h200 : getGoalDetails Mongo.hexOid demoEvents goalKey (fun _ => false)
        = ⟨200, .details ⟨goalKey, "web", "/buy", "purchase", "ann", 0, .obj []⟩
            (demoEvents.views.filter (fun v => decide (v.visitor = "ann")))
            (demoEvents.actions.filter (fun a => decide (a.visitor = "ann")))⟩ := by
      rfl
    rw [h200] at hresp
    injection hresp with _ hbody
    injection hbody with hg _ _
    exact hg.symm
  subst hgoal
  refine ⟨_, views, actions, hresp, rfl, ?_, ?_⟩
  · rw [hv]
    decide
  · rw [ha]
    decide

end Analytics

/-! ## Payment flag -/

namespace Postgres

/-- C10: PATCH /orders/:id, when its statement does not throw, answers 404 and leaves the
store as it was when no order has the id; when an order has it, the answer is 200 with
the updated row, the orders of that id get the given payment flag and the current time
as updated timestamp and keep their id, user, product ids, total and created timestamp,
every other order is unchanged, and so are the other tables. -/
theorem patchOrders_frame (db : Db) (id : String) (payment : Bool) (fault : Nat → Bool)
    (now : Nat) (hstore : fault 0 = false) :
    ((∀ o ∈ db.orders, o.id ≠ id) →
        patchOrders db id payment fault now = (db, .sent ⟨404, .message "Not found"⟩))
      ∧ ((∃ o ∈ db.orders, o.id = id) →
        ∃ row : Order,
          (patchOrders db id payment fault now).2 = .sent ⟨200, .order row⟩
          ∧ row ∈ (patchOrders db id payment fault now).1.orders
          ∧ row.id = id ∧ row.payment = payment ∧ row.updated_at = now)
      ∧ List.Forall₂
          (fun o o1 : Order =>
            o1.id = o.id ∧ o1.user_id = o.user_id ∧ o1.product_ids = o.product_ids
              ∧ o1.total = o.total ∧ o1.created_at = o.created_at
              ∧ (o.id = id → o1.payment = payment ∧ o1.updated_at = now)
              ∧ (o.id ≠ id → o1 = o))
          db.orders (patchOrders db id payment fault now).1.orders
      ∧ (patchOrders db id payment fault now).1.products = db.products
      ∧ (patchOrders db id payment fault now).1.users = db.users
      ∧ (patchOrders db id payment fault now).1.reviews = db.reviews := by
  have hdb : (patchOrders db id payment fault now).1
      = { db with
          orders := db.orders.map
            (fun o => if o.id = id then { o with payment := payment, updated_at := now }
              else o) } := by
    simp only [patchOrders, hstore, if_false, Bool.false_eq_true]
    split <;> rfl
  refine ⟨?_, ?_, ?_, ?_, ?_, ?_⟩
  · intro habsent
    have hfilter : db.orders.filter (fun o => decide (o.id = id)) = [] := by
      rw [List.filter_eq_nil_iff]
      intro o ho
      simpa using habsent o ho
    have hmap : db.orders.map
        (fun o => if o.id = id then { o with payment := payment, updated_at := now } else o)
        = db.orders := by
      conv_rhs => rw [← List.map_id db.orders]
      apply List.map_congr_left
      intro o ho
      simp [habsent o ho]
    simp only [patchOrders, hstore, hfilter, hmap, if_false, Bool.false_eq_true, List.map_nil]
  · intro hpresent
    obtain ⟨o, ho, hoid⟩ := hpresent
    cases hfilter : db.orders.filter (fun o => decide (o.id = id)) with
    | nil =>
      rw [List.filter_eq_nil_iff] at hfilter
      exact absurd (by simpa using hoid) (hfilter o ho)
    | cons first rest =>
      have hmem : first ∈ db.orders.filter (fun o => decide (o.id = id)) := by
        rw [hfilter]
        exact List.Mem.head _
      rw [List.mem_filter] at hmem
      have hfid : first.id = id := by simpa using hmem.2
      refine ⟨{ first with payment := payment, updated_at := now }, ?_, ?_, hfid, rfl, rfl⟩
      · simp only [patchOrders, hstore, hfilter, if_false, Bool.false_eq_true, List.map_cons]
      · rw [hdb]
        exact List.mem_map.2 ⟨first, hmem.1, by simp [hfid]⟩
  · rw [hdb]
    simp only
    rw [List.forall₂_map_right_iff]
    apply List.forall₂_same.2
    intro o _
    by_cases h : o.id = id <;> simp [h]
  · rw [hdb]
  · rw [hdb]
  · rw [hdb]

/-- The unpaid order is marked paid at time 9; the other order stays as it was. -/
theorem patchOrders_frame_witness :
    patchOrders demoShop "o1" true (fun _ => false) 9
        = ({ demoShop with
              orders := [⟨"o1", "u1", [lampId, deskId], JS.ofNat 30, true, 3, 9⟩,
                ⟨"o2", "u2", [deskId], JS.ofNat 18, true, 4, 5⟩] },
            .sent ⟨200, .order ⟨"o1", "u1", [lampId, deskId], JS.ofNat 30, true, 3, 9⟩⟩)
      ∧ patchOrders demoShop "o7" true (fun _ => false) 9
        = (demoShop, .sent ⟨404, .message "Not found"⟩) := by
  have h := patchOrders_frame demoShop "o7" true (fun _ => false) 9 rfl
  exact ⟨by decide, h.1 (by decide)⟩

end Postgres

/-! ## User objects and stored passwords -/

namespace Postgres

/-- Rows with the same public columns have the same id. -/
theorem id_of_publicColumns {u v : User} (h : u.publicColumns = v.publicColumns) :
    u.id = v.id :=
  congrArg PublicUser.id h

/-- The rows an update returns depend on the public columns only. -/
theorem returned_rows_congr (t1 t2 : User → User) (x : String)
    (ht : ∀ u v : User, u.publicColumns = v.publicColumns →
      (t1 u).publicColumns = (t2 v).publicColumns) :
    ∀ a b : List User, a.map User.publicColumns = b.map User.publicColumns →
      ((a.filter (fun u => decide (u.id = x))).map t1).map User.publicColumns
        = ((b.filter (fun u => decide (u.id = x))).map t2).map User.publicColumns := by
  intro a
  induction a with
  | nil =>
    intro b h
    cases b with
    | nil => rfl
    | cons v vs => simp at h
  | cons u us ih =>
    intro b h
    cases b with
    | nil => simp at h
    | cons v vs =>
      simp only [List.map_cons, List.cons.injEq] at h
      have hid := id_of_publicColumns h.1
      have htail := ih vs h.2
      by_cases hx : u.id = x
      · have hvx : v.id = x := by rw [← hid]; exact hx
        simp only [List.filter_cons, hx, hvx, decide_True, if_true, List.map_cons, htail,
          ht u v h.1]
      · have hvx : ¬ v.id = x := by rw [← hid]; exact hx
        simp only [List.filter_cons, hx, hvx, decide_False, Bool.false_eq_true, if_false]
        exact htail

/-- The table after an update has public columns that depend on the public columns
only. -/
theorem updated_table_congr (t1 t2 : User → User) (x : String)
    (ht : ∀ u v : User, u.publicColumns = v.publicColumns →
      (t1 u).publicColumns = (t2 v).publicColumns) :
    ∀ a b : List User, a.map User.publicColumns = b.map User.publicColumns →
      (a.map (fun u => if u.id = x then t1 u else u)).map User.publicColumns
        = (b.map (fun u => if u.id = x then t2 u else u)).map User.publicColumns := by
  intro a
  induction a with
  | nil =>
    intro b h
    cases b with
    | nil => rfl
    | cons v vs => simp at h
  | cons u us ih =>
    intro b h
    cases b with
    | nil => simp at h
    | cons v vs =>
      simp only [List.map_cons, List.cons.injEq] at h
      have hid := id_of_publicColumns h.1
      have htail := ih vs h.2
      by_cases hx : u.id = x
      · have hvx : v.id = x := by rw [← hid]; exact hx
        simp only [List.map_cons, hx, hvx, if_true, htail, ht u v h.1]
      · have hvx : ¬ v.id = x := by rw [← hid]; exact hx
        simp only [List.map_cons, hx, hvx, if_false, htail, h.1]

/-- An update on two stores that agree up to passwords returns the same rows and leaves
stores that agree up to passwords. -/
theorem updateUsers_congr (a b : Db) (x : String) (t1 t2 : User → User)
    (h : samePublic a b)
    (ht : ∀ u v : User, u.publicColumns = v.publicColumns →
      (t1 u).publicColumns = (t2 v).publicColumns) :
    (updateUsers a x t1).2 = (updateUsers b x t2).2
      ∧ samePublic (updateUsers a x t1).1 (updateUsers b x t2).1 := by
  obtain ⟨hp, hr, ho, hu⟩ := h
  exact ⟨returned_rows_congr t1 t2 x ht a.users b.users hu,
    hp, hr, ho, updated_table_congr t1 t2 x ht a.users b.users hu⟩

/-- The rows an update returns are public columns of rows of the table it leaves. -/
theorem updateUsers_returned_mem (db : Db) (x : String) (t : User → User) :
    ∀ r ∈ (updateUsers db x t).2, ∃ row ∈ (updateUsers db x t).1.users,
      r = row.publicColumns := by
  intro r hr
  simp only [updateUsers, List.mem_map, List.mem_filter, decide_eq_true_eq] at hr ⊢
  obtain ⟨w, ⟨u, ⟨hu, hux⟩, rfl⟩, rfl⟩ := hr
  exact ⟨t u, ⟨u, hu, by simp [hux]⟩, rfl⟩

/-- The views of an order on two stores that agree up to passwords are equal. -/
theorem viewOrder_congr (a b : Db) (o : Order) (h : samePublic a b) :
    viewOrder a o = viewOrder b o := by
  obtain ⟨hp, -, -, hu⟩ := h
  have hrows := returned_rows_congr id id o.user_id (fun _ _ h => h) a.users b.users hu
  simp only [List.map_id] at hrows
  simp only [viewOrder, selectProducts, hp, hrows]

theorem viewOrders_congr (a b : Db) (fault : Nat → Bool) (h : samePublic a b)
    (orders : List Order) :
    ∀ i : Nat, viewOrders a fault i orders = viewOrders b fault i orders := by
  induction orders with
  | nil => intro i; rfl
  | cons o rest ih =>
    intro i
    simp only [viewOrders, ih (i + 1), viewOrder_congr a b o h]

/-- The user of an order view is the public columns of a stored row. -/
theorem viewOrder_user_mem (db : Db) (o : Order) :
    ∀ u ∈ (viewOrder db o).user.toList, ∃ row ∈ db.users, u = row.publicColumns := by
  intro u hu
  simp only [viewOrder, Option.mem_toList, Option.mem_def] at hu
  have hmem := List.mem_of_mem_head? hu
  simp only [List.mem_map, List.mem_filter] at hmem
  obtain ⟨row, ⟨hrow, -⟩, rfl⟩ := hmem
  exact ⟨row, hrow, rfl⟩

theorem viewOrders_user_mem (db : Db) (fault : Nat → Bool) (orders : List Order) :
    ∀ (i : Nat) (views : List OrderView), viewOrders db fault i orders = some views →
      ∀ u ∈ views.flatMap (fun v => v.user.toList), ∃ row ∈ db.users,
        u = row.publicColumns := by
  induction orders with
  | nil =>
    intro i views h u hu
    simp only [viewOrders, Option.some.injEq] at h
    subst h
    simp at hu
  | cons o rest ih =>
    intro i views h u hu
    simp only [viewOrders] at h
    split at h
    · simp at h
    · split at h
      · simp at h
      · rename_i tail htail
        simp only [Option.some.injEq] at h
        subst h
        simp only [List.flatMap_cons, List.mem_append] at hu
        rcases hu with hu | hu
        · exact viewOrder_user_mem db o u hu
        · exact ih (i + 1) tail htail u hu

/-- What `sendUpdated` sends has the returned rows as its only user objects. -/
theorem sendUpdated_userObjects (updated : List PublicUser) :
    ∀ u ∈ (sendUpdated updated).userObjects, u ∈ updated := by
  intro u hu
  cases updated with
  | nil => simp [sendUpdated, Outcome.userObjects] at hu
  | cons r rs =>
    simp only [sendUpdated, Outcome.userObjects, List.mem_singleton] at hu
    subst hu
    exact List.Mem.head _

/-- The partial update touches the public columns in a way that depends on them only. -/
theorem patchRow_congr (username email p1 p2 : Option String) (u v : User)
    (h : u.publicColumns = v.publicColumns) :
    (patchRow username email p1 u).publicColumns
      = (patchRow username email p2 v).publicColumns := by
  simp only [User.publicColumns, PublicUser.mk.injEq] at h
  obtain ⟨h1, h2, h3⟩ := h
  simp only [patchRow, User.publicColumns, h1, h2, h3]

/-- The password assignment is present, absent or throwing whatever the hash. -/
theorem patchPassword_shape (hash1 hash2 : String → String) (v : Option JVal) :
    (patchPassword hash1 v = none ∧ patchPassword hash2 v = none)
      ∨ (patchPassword hash1 v = some none ∧ patchPassword hash2 v = some none)
      ∨ (∃ p1 p2, patchPassword hash1 v = some (some p1)
          ∧ patchPassword hash2 v = some (some p2)) := by
  cases v with
  | none => exact Or.inl ⟨rfl, rfl⟩
  | some x =>
    cases x with
    | str s =>
      by_cases hs : truthy (some (.str s)) = true
      · exact Or.inr (Or.inr ⟨hash1 s, hash2 s, by simp [patchPassword, hs],
          by simp [patchPassword, hs]⟩)
      · exact Or.inl ⟨by simp [patchPassword, hs], by simp [patchPassword, hs]⟩
    | null => exact Or.inl ⟨rfl, rfl⟩
    | bool b =>
      cases b
      · exact Or.inl ⟨rfl, rfl⟩
      · exact Or.inr (Or.inl ⟨rfl, rfl⟩)
    | num n =>
      by_cases hs : truthy (some (.num n)) = true
      · exact Or.inr (Or.inl ⟨by simp [patchPassword, hs], by simp [patchPassword, hs]⟩)
      · exact Or.inl ⟨by simp [patchPassword, hs], by simp [patchPassword, hs]⟩
    | arr xs => exact Or.inr (Or.inl ⟨rfl, rfl⟩)
    | obj kvs => exact Or.inr (Or.inl ⟨rfl, rfl⟩)

end Postgres
namespace Postgres

/-- C11: the six requests whose responses carry user objects answer the same on two
stores that differ at most in their users' stored passwords, whatever hash function
each store's handler uses; the stores still differ at most in passwords afterwards; and
every user object of a response is the `id, username, email` columns of a stored row
(the type of a user object has these three fields and no other). -/
theorem responses_hide_passwords (isEmail : String → Bool) (sqlText : JVal → Option String)
    (hash1 hash2 : String → String) (a b : Db) (fault : Nat → Bool) (newId : String)
    (req : AccountRequest) (h : samePublic a b) :
    (serve isEmail sqlText hash1 a fault newId req).2
        = (serve isEmail sqlText hash2 b fault newId req).2
      ∧ samePublic (serve isEmail sqlText hash1 a fault newId req).1
          (serve isEmail sqlText hash2 b fault newId req).1
      ∧ (∀ u ∈ (serve isEmail sqlText hash1 a fault newId req).2.userObjects,
          ∃ row ∈ (serve isEmail sqlText hash1 a fault newId req).1.users,
            u = row.publicColumns) := by
  have hcopy := h
  obtain ⟨hp, hr, ho, hu⟩ := hcopy
  cases req with
  | postUsers body =>
    simp only [serve, postUsers]
    cases hv : CreateUserSchema isEmail body with
    | none => exact ⟨rfl, h, by simp [Outcome.userObjects]⟩
    | some d =>
      obtain ⟨username, email, password⟩ := d
      cases hf : fault 0 with
      | true => exact ⟨rfl, h, by simp [Outcome.userObjects]⟩
      | false =>
        simp only [Bool.false_eq_true, if_false]
        refine ⟨rfl, ⟨hp, hr, ho, ?_⟩, ?_⟩
        · simp only [List.map_append, hu, List.map_cons, List.map_nil, User.publicColumns]
        · intro u hu'
          simp only [Outcome.userObjects, List.mem_singleton] at hu'
          exact ⟨⟨newId, username, email, hash1 password⟩, by simp, hu'⟩
  | putUsers id body =>
    simp only [serve, putUsers]
    cases hv : CreateUserSchema isEmail body with
    | none => exact ⟨rfl, h, by simp [Outcome.userObjects]⟩
    | some d =>
      obtain ⟨username, email, password⟩ := d
      cases hf : fault 0 with
      | true => exact ⟨rfl, h, by simp [Outcome.userObjects]⟩
      | false =>
        simp only [Bool.false_eq_true, if_false]
        obtain ⟨hrows, hsame⟩ := updateUsers_congr a b id
          (fun u => { u with username := username, email := email, password := hash1 password })
          (fun u => { u with username := username, email := email, password := hash2 password })
          h (by
            intro u v huv
            simp only [User.publicColumns, PublicUser.mk.injEq] at huv ⊢
            simp [huv.1])
        refine ⟨by rw [hrows], hsame, ?_⟩
        intro u hu'
        exact updateUsers_returned_mem a id _ u (sendUpdated_userObjects _ u hu')
  | patchUsers id body =>
    simp only [serve, patchUsers]
    rcases patchPassword_shape hash1 hash2 (body.field "password") with
      ⟨h1, h2⟩ | ⟨h1, h2⟩ | ⟨p1, p2, h1, h2⟩
    · rw [h1, h2]
      simp only
      split
      · exact ⟨rfl, h, by simp [Outcome.userObjects]⟩
      · split
        · exact ⟨rfl, h, by simp [Outcome.userObjects]⟩
        · obtain ⟨hrows, hsame⟩ := updateUsers_congr a b id
            (patchRow (patchField sqlText (body.field "username")).join
              (patchField sqlText (body.field "email")).join (none : Option (Option String)).join)
            (patchRow (patchField sqlText (body.field "username")).join
              (patchField sqlText (body.field "email")).join (none : Option (Option String)).join)
            h (fun u v huv => patchRow_congr _ _ _ _ u v huv)
          refine ⟨by rw [hrows], hsame, ?_⟩
          intro u hu'
          exact updateUsers_returned_mem a id _ u (sendUpdated_userObjects _ u hu')
    · rw [h1, h2]
      exact ⟨rfl, h, by simp [Outcome.userObjects]⟩
    · rw [h1, h2]
      simp only [Option.isNone_some, Bool.and_false, Bool.false_eq_true, if_false]
      split
      · exact ⟨rfl, h, by simp [Outcome.userObjects]⟩
      · obtain ⟨hrows, hsame⟩ := updateUsers_congr a b id
          (patchRow (patchField sqlText (body.field "username")).join
            (patchField sqlText (body.field "email")).join (some (some p1)).join)
          (patchRow (patchField sqlText (body.field "username")).join
            (patchField sqlText (body.field "email")).join (some (some p2)).join)
          h (fun u v huv => patchRow_congr _ _ _ _ u v huv)
        refine ⟨by rw [hrows], hsame, ?_⟩
        intro u hu'
        exact updateUsers_returned_mem a id _ u (sendUpdated_userObjects _ u hu')
  | getUsers =>
    simp only [serve, getUsers]
    cases hf : fault 0 with
    | true => exact ⟨rfl, h, by simp [Outcome.userObjects]⟩
    | false =>
      simp only [Bool.false_eq_true, if_false, hu]
      refine ⟨trivial, h, ?_⟩
      intro u hu'
      simp only [Outcome.userObjects] at hu'
      rw [← hu] at hu'
      obtain ⟨row, hrow, rfl⟩ := List.mem_map.1 hu'
      exact ⟨row, hrow, rfl⟩
  | getOrders =>
    simp only [serve, getOrders]
    cases hf : fault 0 with
    | true => exact ⟨rfl, h, by simp [Outcome.userObjects]⟩
    | false =>
      simp only [Bool.false_eq_true, if_false]
      rw [← ho, ← viewOrders_congr a b fault h a.orders 0]
      cases hviews : viewOrders a fault 0 a.orders with
      | none => exact ⟨rfl, h, by simp [Outcome.userObjects]⟩
      | some views =>
        refine ⟨rfl, h, ?_⟩
        intro u hu'
        simp only [Outcome.userObjects] at hu'
        exact viewOrders_user_mem a fault a.orders 0 views hviews u hu'
  | getOrder id =>
    simp only [serve, getOrderById]
    cases hf : fault 0 with
    | true => exact ⟨rfl, h, by simp [Outcome.userObjects]⟩
    | false =>
      simp only [Bool.false_eq_true, if_false]
      rw [← ho]
      cases hfilter : a.orders.filter (fun o => decide (o.id = id)) with
      | nil => exact ⟨rfl, h, by simp [Outcome.userObjects]⟩
      | cons o rest =>
        simp only
        cases hf12 : (fault 1 || fault 2) with
        | true => exact ⟨rfl, h, by simp [Outcome.userObjects]⟩
        | false =>
          simp only [Bool.false_eq_true, if_false, viewOrder_congr a b o h]
          refine ⟨trivial, h, ?_⟩
          intro u hu'
          simp only [Outcome.userObjects] at hu'
          rw [← viewOrder_congr a b o h] at hu'
          exact viewOrder_user_mem a o u hu'

end Postgres

namespace Postgres

/-- The order reads and a user creation on two stores that differ in passwords only,
served with two different hash functions. -/
theorem responses_hide_passwords_witness :
    (serve emailShape (fun _ => none) (fun s => s ++ "#") demoAccounts (fun _ => false) "u3"
        .getOrders).2
      = (serve emailShape (fun _ => none) (fun s => "#" ++ s) demoAccountsRehashed
          (fun _ => false) "u3" .getOrders).2
    ∧ (serve emailShape (fun _ => none) (fun s => s ++ "#") demoAccounts (fun _ => false) "u3"
        .getOrders).2.userObjects
      = [⟨"u1", "ann", "ann@example.org"⟩, ⟨"u2", "bob", "bob@example.org"⟩]
    ∧ (serve emailShape (fun _ => none) (fun s => s ++ "#") demoAccounts (fun _ => false) "u3"
        (.postUsers cidBody)).2
      = .sent ⟨201, .user ⟨"u3", "cid", "cid@example.org"⟩⟩ := by
  have h := responses_hide_passwords emailShape (fun _ => none) (fun s => s ++ "#")
    (fun s => "#" ++ s) demoAccounts demoAccountsRehashed (fun _ => false) "u3" .getOrders
    ⟨rfl, rfl, rfl, by decide⟩
  exact ⟨h.1, by decide, by decide⟩

end Postgres

/-! ## Malformed product input -/

namespace Mongo

/-- One id that is no `ObjectId` makes the conversion of the whole list throw. -/
theorem mapObjectId_none_of_mem (oid : String → Option String) (ids : List String) (x : String)
    (hx : x ∈ ids) (hbad : oid x = none) : mapObjectId oid ids = none := by
  induction ids with
  | nil => simp at hx
  | cons s rest ih =>
    rcases List.mem_cons.1 hx with h | h
    · subst h
      simp [mapObjectId, hbad]
    · have hrest := ih h
      cases hs : oid s <;> simp [mapObjectId, hs, hrest]

/-- What the two handlers do with malformed input: in every case no store call and no
event, and the store as it was; the status is 400 when the body fails the schema and 500
when the body passes the schema and a category id is no `ObjectId`. -/
theorem malformed_product_input (oid : String → Option String) (db : Db) (w : World)
    (id : String) (body : JVal) :
    (CreateProductSchema body = none →
        postProduct oid db body w = ⟨db, [], ⟨400, .zodError⟩⟩
        ∧ (putProduct oid db id body w).db = db
        ∧ (putProduct oid db id body w).trace = []
        ∧ (putProduct oid db id body w).response.status = 400)
      ∧ (∀ d x, CreateProductSchema body = some d → x ∈ d.categoryIds → oid x = none →
        postProduct oid db body w = ⟨db, [], ⟨500, .mongoError⟩⟩
        ∧ (putProduct oid db id body w).db = db
        ∧ (putProduct oid db id body w).trace = []
        ∧ ((oid id).isSome → (putProduct oid db id body w).response.status = 500)) := by
  constructor
  · intro hv
    refine ⟨by simp only [postProduct, hv], ?_⟩
    cases h0 : oid id <;> simp [putProduct, h0, hv]
  · intro d x hv hx hbad
    have hmap := mapObjectId_none_of_mem oid d.categoryIds x hx hbad
    refine ⟨by simp only [postProduct, hv, hmap], ?_⟩
    cases h0 : oid id <;> simp [putProduct, h0, hv, hmap]

/-- C12, where the code departs from it: a body that passes the schema and carries a
category id that is no `ObjectId` makes `new ObjectId` throw inside the `try`; POST
/products and PUT /products/:id answer 500, not 400, with no store call, no event and
the store unchanged. -/
theorem malformed_categoryId_is_500 :
    CreateProductSchema badCategoryBody = some ⟨"stool", "a stool", JS.ofNat 12, ["not-an-id"]⟩
      ∧ hexOid "not-an-id" = none
      ∧ (postProduct hexOid demoCatalog badCategoryBody ⟨false, false, strayId⟩).response.status
        = 500
      ∧ (postProduct hexOid demoCatalog badCategoryBody ⟨false, false, strayId⟩).trace.length = 0
      ∧ (postProduct hexOid demoCatalog badCategoryBody ⟨false, false, strayId⟩).db = demoCatalog
      ∧ (putProduct hexOid demoCatalog chairId badCategoryBody
          ⟨false, false, strayId⟩).response.status = 500
      ∧ (putProduct hexOid demoCatalog chairId badCategoryBody
          ⟨false, false, strayId⟩).trace.length = 0
      ∧ (putProduct hexOid demoCatalog chairId badCategoryBody ⟨false, false, strayId⟩).db
        = demoCatalog := by
  decide

/-! ## Create events -/

/-- A list that passes as strings is the list of those strings. -/
theorem allStrings_eq (xs : List JVal) :
    ∀ ss : List String, JVal.allStrings xs = some ss → xs = ss.map JVal.str := by
  induction xs with
  | nil =>
    intro ss h
    simp only [JVal.allStrings, Option.some.injEq] at h
    subst h
    rfl
  | cons x rest ih =>
    intro ss h
    cases x with
    | str s =>
      simp only [JVal.allStrings, Option.map_eq_some'] at h
      obtain ⟨tail, htail, rfl⟩ := h
      rw [ih tail htail]
      rfl
    | null => simp [JVal.allStrings] at h
    | bool b => simp [JVal.allStrings] at h
    | num n => simp [JVal.allStrings] at h
    | arr ys => simp [JVal.allStrings] at h
    | obj kvs => simp [JVal.allStrings] at h

theorem asString_eq (v : Option JVal) (s : String) (h : JVal.asString v = some s) :
    v = some (.str s) := by
  unfold JVal.asString at h
  split at h
  · simp only [Option.some.injEq] at h
    subst h
    rfl
  · simp at h

theorem asStringArray_eq (v : Option JVal) (ss : List String)
    (h : JVal.asStringArray v = some ss) : v = some (.arr (ss.map JVal.str)) := by
  unfold JVal.asStringArray at h
  split at h
  · rename_i xs
    rw [allStrings_eq xs ss h]
  · simp at h

theorem asNumber_eq (v : Option JVal) (x : JS.Num) (h : JVal.asNumber v = some x) :
    v = some (.num x) := by
  unfold JVal.asNumber at h
  split at h
  · simp at h
  · simp only [Option.some.injEq] at h
    subst h
    rfl
  · simp at h

theorem asPositive_eq (v : Option JVal) (x : JS.Num) (h : asPositive v = some x) :
    v = some (.num x) := by
  unfold asPositive at h
  split at h
  · rename_i k hk
    split at h
    · simp only [Option.some.injEq] at h
      subst h
      exact asNumber_eq _ _ hk
    · simp at h
  · rename_i hk
    simp only [Option.some.injEq] at h
    subst h
    exact asNumber_eq _ _ hk
  · simp at h

/-- The data the product schema yields are the fields of the body as submitted. -/
theorem CreateProductSchema_fields (body : JVal) (d : CreateProduct)
    (h : CreateProductSchema body = some d) :
    body.field "name" = some (.str d.name) ∧ body.field "about" = some (.str d.about)
      ∧ body.field "price" = some (.num d.price)
      ∧ body.field "categoryIds" = some (.arr (d.categoryIds.map JVal.str)) := by
  unfold CreateProductSchema at h
  split at h
  · rename_i name about price categoryIds h1 h2 h3 h4
    simp only [Option.some.injEq] at h
    subst h
    exact ⟨asString_eq _ _ h1, asString_eq _ _ h2, asPositive_eq _ _ h3,
      asStringArray_eq _ _ h4⟩
  · simp at h

/-- C14: a product create whose body passes the schema, whose category ids are
`ObjectId`s, whose insert is acknowledged and whose emit does not throw stores the
product, emits exactly one event, of type create, and answers 201; the payload of the
event is the record sent with the 201: the id the store generated, as a string, with the
name, about, price and categoryIds of the body exactly as submitted.  So for a category
create: the record is the generated id and the name of the body.  Conversely a 201 is
answered in these cases only, and then with that one event and that record. -/
theorem create_event_matches_response (oid : String → Option String) (db : Db) (w : World)
    (body : JVal) :
    (∀ (d : CreateProduct) (cs : List String),
        CreateProductSchema body = some d → mapObjectId oid d.categoryIds = some cs →
        w.storeThrows = false → w.emitThrows = false →
        (body.field "name" = some (.str d.name) ∧ body.field "about" = some (.str d.about)
          ∧ body.field "price" = some (.num d.price)
          ∧ body.field "categoryIds" = some (.arr (d.categoryIds.map JVal.str)))
        ∧ postProduct oid db body w
          = ⟨{ db with
                products := db.products ++ [⟨w.insertedId, d.name, d.about, d.price, cs⟩] },
              [.store "insertOne" "products" (some 1),
                .emit "products"
                  (.obj [("type", .str "create"),
                    ("product", .obj [("_id", .str w.insertedId), ("name", .str d.name),
                      ("about", .str d.about), ("price", .num d.price),
                      ("categoryIds", .arr (d.categoryIds.map JVal.str))])]) false],
              ⟨201, .json (.obj [("_id", .str w.insertedId), ("name", .str d.name),
                ("about", .str d.about), ("price", .num d.price),
                ("categoryIds", .arr (d.categoryIds.map JVal.str))])⟩⟩)
      ∧ (∀ name : String,
        CreateCategorySchema body = some name →
        w.storeThrows = false → w.emitThrows = false →
        body.field "name" = some (.str name)
        ∧ postCategory db body w
          = ⟨{ db with categories := db.categories ++ [⟨w.insertedId, name⟩] },
              [.store "insertOne" "categories" (some 1),
                .emit "categories"
                  (.obj [("type", .str "create"),
                    ("category", .obj [("_id", .str w.insertedId), ("name", .str name)])])
                  false],
              ⟨201, .json (.obj [("_id", .str w.insertedId), ("name", .str name)])⟩⟩)
      ∧ ((postProduct oid db body w).response.status = 201 →
        ∃ d : CreateProduct,
          CreateProductSchema body = some d
          ∧ (∃ cs, mapObjectId oid d.categoryIds = some cs)
          ∧ w.storeThrows = false ∧ w.emitThrows = false
          ∧ body.field "name" = some (.str d.name) ∧ body.field "about" = some (.str d.about)
          ∧ body.field "price" = some (.num d.price)
          ∧ body.field "categoryIds" = some (.arr (d.categoryIds.map JVal.str))
          ∧ (postProduct oid db body w).response
            = ⟨201, .json (.obj [("_id", .str w.insertedId), ("name", .str d.name),
                ("about", .str d.about), ("price", .num d.price),
                ("categoryIds", .arr (d.categoryIds.map JVal.str))])⟩
          ∧ (postProduct oid db body w).trace.filter Effect.isEmit
            = [.emit "products"
                (.obj [("type", .str "create"),
                  ("product", .obj [("_id", .str w.insertedId), ("name", .str d.name),
                    ("about", .str d.about), ("price", .num d.price),
                    ("categoryIds", .arr (d.categoryIds.map JVal.str))])]) false])
      ∧ ((postCategory db body w).response.status = 201 →
        ∃ name : String,
          CreateCategorySchema body = some name
          ∧ w.storeThrows = false ∧ w.emitThrows = false
          ∧ body.field "name" = some (.str name)
          ∧ (postCategory db body w).response
            = ⟨201, .json (.obj [("_id", .str w.insertedId), ("name", .str name)])⟩
          ∧ (postCategory db body w).trace.filter Effect.isEmit
            = [.emit "categories"
                (.obj [("type", .str "create"),
                  ("category", .obj [("_id", .str w.insertedId), ("name", .str name)])])
                false]) := by
  refine ⟨?_, ?_, ?_, ?_⟩
  · intro d cs hv hm hs he
    refine ⟨CreateProductSchema_fields body d hv, ?_⟩
    simp only [postProduct, hv, hm, hs, he, Bool.false_eq_true, if_false, productJson]
  · intro name hv hs he
    refine ⟨asString_eq _ _ hv, ?_⟩
    simp only [postCategory, hv, hs, he, Bool.false_eq_true, if_false]
  · intro hstatus
    cases hv : CreateProductSchema body with
    | none => simp [postProduct, hv] at hstatus
    | some d =>
      cases hm : mapObjectId oid d.categoryIds with
      | none => simp [postProduct, hv, hm] at hstatus
      | some cs =>
        cases hs : w.storeThrows with
        | true => simp [postProduct, hv, hm, hs] at hstatus
        | false =>
          cases he : w.emitThrows with
          | true => simp [postProduct, hv, hm, hs, he] at hstatus
          | false =>
            obtain ⟨f1, f2, f3, f4⟩ := CreateProductSchema_fields body d hv
            refine ⟨d, rfl, ⟨cs, hm⟩, rfl, rfl, f1, f2, f3, f4, ?_, ?_⟩
            · simp only [postProduct, hv, hm, hs, he, Bool.false_eq_true, if_false,
                productJson]
            · simp only [postProduct, hv, hm, hs, he, Bool.false_eq_true, if_false,
                productJson, List.filter, Effect.isEmit]
  · intro hstatus
    cases hv : CreateCategorySchema body with
    | none => simp [postCategory, hv] at hstatus
    | some name =>
      cases hs : w.storeThrows with
      | true => simp [postCategory, hv, hs] at hstatus
      | false =>
        cases he : w.emitThrows with
        | true => simp [postCategory, hv, hs, he] at hstatus
        | false =>
          refine ⟨name, rfl, rfl, rfl, asString_eq _ _ hv, ?_, ?_⟩
          · simp only [postCategory, hv, hs, he, Bool.false_eq_true, if_false]
          · simp only [postCategory, hv, hs, he, Bool.false_eq_true, if_false,
              List.filter, Effect.isEmit]

/-- The stool and the category `garden` are created: each is stored, answered 201 and
broadcast once, with the record that is sent. -/
theorem create_event_matches_response_witness :
    postProduct hexOid demoCatalog stoolBody ⟨false, false, strayId⟩
        = ⟨{ demoCatalog with
              products := demoCatalog.products
                ++ [⟨strayId, "stool", "a stool", JS.ofNat 12, ["64b7f0c2a1d3e4f5a6b7c8aa"]⟩] },
            [.store "insertOne" "products" (some 1),
              .emit "products"
                (.obj [("type", .str "create"),
                  ("product", .obj [("_id", .str strayId), ("name", .str "stool"),
                    ("about", .str "a stool"), ("price", .num (JS.ofNat 12)),
                    ("categoryIds", .arr [.str "64b7f0c2a1d3e4f5a6b7c8aa"])])]) false],
            ⟨201, .json (.obj [("_id", .str strayId), ("name", .str "stool"),
              ("about", .str "a stool"), ("price", .num (JS.ofNat 12)),
              ("categoryIds", .arr [.str "64b7f0c2a1d3e4f5a6b7c8aa"])])⟩⟩
      ∧ postCategory demoCatalog gardenBody ⟨false, false, strayId⟩
        = ⟨{ demoCatalog with categories := demoCatalog.categories ++ [⟨strayId, "garden"⟩] },
            [.store "insertOne" "categories" (some 1),
              .emit "categories"
                (.obj [("type", .str "create"),
                  ("category", .obj [("_id", .str strayId), ("name", .str "garden")])])
                false],
            ⟨201, .json (.obj [("_id", .str strayId), ("name", .str "garden")])⟩⟩ := by
  have h := create_event_matches_response hexOid demoCatalog ⟨false, false, strayId⟩ stoolBody
  have g := create_event_matches_response hexOid demoCatalog ⟨false, false, strayId⟩ gardenBody
  exact ⟨(h.1 ⟨"stool", "a stool", JS.ofNat 12, ["64b7f0c2a1d3e4f5a6b7c8aa"]⟩
      ["64b7f0c2a1d3e4f5a6b7c8aa"] (by decide) (by decide) rfl rfl).2,
    (g.2.1 "garden" (by decide) rfl rfl).2⟩

end Mongo
